import Mathlib

/-!
Shallow embedding of the vantageflow price-monitoring core
(src/main.py, src/worker.py, src/supabase_db.py) in Lean 4.

Conventions used throughout:
* Python `str` is embedded as `List Char` (abbreviated `Str`); only ASCII
  behaviour of `str.lower`, `\s`, `\w` is modelled, which covers every
  keyword/pattern in the source.
* Python `float` prices are embedded as `ℚ` (all prices in the source are
  produced by parsing decimal numerals or dividing integers by 100, and are
  only compared for equality/order, so exact rationals are the faithful
  value-level model).
* JSON values are the inductive `JValue`; `None` is `JValue.jnull`.
* Network and filesystem effects are oracles passed as explicit arguments;
  raised-and-uncaught Python exceptions are `Except PyExn`.
* Each `re.search` call is hand-compiled to a deterministic scanner that
  tries match positions left to right, and at a position tries the
  alternatives/quantifier lengths in exactly the backtracking order of the
  Python `re` engine (longest first for greedy quantifiers, `with` before
  `without` for `?`, alternation in written order).
-/

abbrev Str := List Char

/-- The whitespace characters of Python's default `str.strip` / ASCII `\s`:
space, tab, newline, carriage return, vertical tab, form feed. -/
def isPySpace (c : Char) : Bool :=
  c = ' ' || c = '\t' || c = '\n' || c = '\r' || c = '\x0b' || c = '\x0c'

/-- ASCII word character, as in `\w` / `\b` of the source regexes. -/
def isWordChar (c : Char) : Bool :=
  c.isAlphanum || c = '_'

/-- ASCII `str.lower` on one character. -/
def lowerChar (c : Char) : Char :=
  if 65 ≤ c.toNat ∧ c.toNat ≤ 90 then Char.ofNat (c.toNat + 32) else c

/-- `str.lower` (ASCII). -/
def pyLower (l : Str) : Str :=
  l.map lowerChar

/-- `str.strip()` with no argument: remove leading/trailing whitespace. -/
def pyStrip (l : Str) : Str :=
  ((l.dropWhile isPySpace).reverse.dropWhile isPySpace).reverse

/-- `str.strip(chars)` for a one-character class, e.g. `strip("/")`. -/
def pyStripChar (p : Char → Bool) (l : Str) : Str :=
  ((l.dropWhile p).reverse.dropWhile p).reverse

/-- `str.lstrip(chars)` for a one-character class. -/
def pyLStripChar (p : Char → Bool) (l : Str) : Str :=
  l.dropWhile p

/-- Fuel-driven loop of `removeAll`; the fuel starts at the string length,
which bounds the number of steps since every step consumes at least one
character. -/
def removeAllGo (p : Str) : ℕ → Str → Str
  | _, [] => []
  | 0, l => l
  | fuel + 1, c :: t =>
    if p ≠ [] ∧ p.isPrefixOf (c :: t) then removeAllGo p fuel ((c :: t).drop p.length)
    else c :: removeAllGo p fuel t

/-- `str.replace(pat, "")` — remove every occurrence of `pat`, scanning left
to right and continuing after each removed occurrence. -/
def removeAll (p : Str) (l : Str) : Str :=
  removeAllGo p l.length l

/-- `str.replace(c, "")` for a single character is a filter. -/
def removeChar (c : Char) (l : Str) : Str :=
  l.filter (fun x => x ≠ c)

/-- Decimal value of a digit string (`int("ddd")`). -/
def digitsNat (l : Str) : ℕ :=
  l.foldl (fun acc c => 10 * acc + (c.toNat - 48)) 0

/-- `str(n)` for a natural number, as a `Str`. -/
def natStr (n : ℕ) : Str :=
  (toString n).data

/-- `str(n)` for a Python int, as a `Str`. -/
def intStr (n : ℤ) : Str :=
  (toString n).data

/-- Python `float(s)` on the numeral shapes reachable in this program
(`digits`, `digits.digits`, `.digits`, `digits.`); every other input
raises `ValueError`, modelled as `none`.  All strings the source ever
passes to `float` come from regex groups of exactly these shapes. -/
def pyFloat? (l : Str) : Option ℚ :=
  let ip := l.takeWhile Char.isDigit
  let r1 := l.drop ip.length
  match r1 with
  | [] => if ip = [] then none else some (digitsNat ip : ℚ)
  | '.' :: fr =>
    let fp := fr.takeWhile Char.isDigit
    let r2 := fr.drop fp.length
    if r2 = [] ∧ (ip ≠ [] ∨ fp ≠ []) then
      some ((digitsNat ip : ℚ) + (digitsNat fp : ℚ) / (10 : ℚ) ^ fp.length)
    else none
  | _ => none

/-- JSON values, as returned by `response.json()` / `json.load`. `jnull`
is Python `None`. -/
inductive JValue where
  | jnull : JValue
  | jbool : Bool → JValue
  | jnum : ℚ → JValue
  | jstr : String → JValue
  | jarr : List JValue → JValue
  | jobj : List (String × JValue) → JValue

/-- Python truthiness of a JSON value. -/
def jTruthy : JValue → Bool
  | .jnull => false
  | .jbool b => b
  | .jnum q => decide (q ≠ 0)
  | .jstr s => decide (s ≠ "")
  | .jarr l => !l.isEmpty
  | .jobj l => !l.isEmpty

/-- `dict.get(k)` on a JSON object: `none` when the key is absent. Only
objects have keys; callers handle the non-object case themselves. -/
def jget (v : JValue) (k : String) : Option JValue :=
  match v with
  | .jobj kvs => (kvs.find? (fun kv => kv.1 = k)).map (fun kv => kv.2)
  | _ => none

/-- Python truthiness of an `Optional` JSON value (`if data:` where `data`
may be `None`). -/
def optTruthy : Option JValue → Bool
  | none => false
  | some v => jTruthy v

/-- The uncaught Python exceptions reachable in the embedded code. -/
inductive PyExn where
  | typeError : PyExn
  | attributeError : PyExn
  | valueError : PyExn
deriving DecidableEq

/-! ### `_extract_first_price` (src/main.py lines 38-48)

The regex `\$\s?\d{1,3}(?:,\d{3})*(?:\.\d{2})?` is hand-compiled.  After the
mandatory `\$\s?\d{1,3}`, every remaining part of the pattern can match the
empty string, so the greedy first-try of the `re` engine always succeeds and
no cross-part backtracking can change the match: the deterministic greedy
scan below is the exact match semantics.  `\s?` is deterministic because a
whitespace character can never satisfy the following `\d`. -/

/-- Greedy `\d{1,n}` at the head: up to `n` digits and the rest. -/
def takeDigitsUpTo (n : ℕ) (l : Str) : Str × Str :=
  let ds := (l.takeWhile Char.isDigit).take n
  (ds, l.drop ds.length)

/-- Greedy `(?:,\d{3})*` at the head: the matched characters and the rest. -/
def takeGroups : Str → Str × Str
  | ',' :: d1 :: d2 :: d3 :: rest =>
    if d1.isDigit && d2.isDigit && d3.isDigit then
      let (gs, r) := takeGroups rest
      (',' :: d1 :: d2 :: d3 :: gs, r)
    else ([], ',' :: d1 :: d2 :: d3 :: rest)
  | l => ([], l)

/-- Greedy `(?:\.\d{2})?` at the head. -/
def takeCents : Str → Str × Str
  | '.' :: a :: b :: rest =>
    if a.isDigit && b.isDigit then (['.', a, b], rest)
    else ([], '.' :: a :: b :: rest)
  | l => ([], l)

/-- The price regex matched at the start of `l`; returns `match.group(0)`. -/
def matchDollarAt : Str → Option Str
  | '$' :: r =>
    let spr :=
      match r with
      | c :: r' =>
        let nextIsDigit := match r' with | d :: _ => d.isDigit | [] => false
        if isPySpace c && nextIsDigit then (([c] : Str), r')
        else (([] : Str), c :: r')
      | [] => (([] : Str), ([] : Str))
    let (ds, r2) := takeDigitsUpTo 3 spr.2
    if ds = [] then none
    else
      let (gs, r3) := takeGroups r2
      let (cs, _r4) := takeCents r3
      some ('$' :: (spr.1 ++ ds ++ gs ++ cs))
  | _ => none

/-- `re.search` with the price regex: first matching position, scanning
left to right. -/
def searchDollar : Str → Option Str
  | [] => none
  | c :: t =>
    match matchDollarAt (c :: t) with
    | some m => some m
    | none => searchDollar t

/-- `_extract_first_price` (src/main.py lines 38-48). -/
def extract_first_price (text : Str) : Option ℚ :=
  if text = [] then none
  else
    match searchDollar text with
    | none => none
    | some m => pyFloat? (pyStrip (removeChar ',' (removeChar '$' m)))

/-! ### `_extract_stock_status` (src/main.py lines 51-63)

Each `re.search(r"\b(alt1|alt2|...)\b", lowered)` is compiled to a scan over
the match positions; `\b` before an alternative that starts with a word
character holds exactly when the previous character is not a word character
(or the position is the start), and `\b` after one that ends with a word
character holds exactly when the next character is not a word character (or
the string ends). -/

/-- Literal-prefix match: the rest of the string after `p`, if `l` starts
with `p`. -/
def litP (p : Str) (l : Str) : Option Str :=
  if p.isPrefixOf l then some (l.drop p.length) else none

/-- Trailing `\b` for a pattern that ends in a word character. -/
def endB : Str → Bool
  | [] => true
  | c :: _ => !isWordChar c

/-- Literal followed by a trailing `\b`. -/
def litEndB (p : Str) (l : Str) : Bool :=
  match litP p l with
  | some r => endB r
  | none => false

/-- Scan all match positions with the word-boundary state (`prevWord` is
whether the previous character is a word character), returning whether the
position predicate holds anywhere. -/
def scanB (atP : Str → Bool) (prevWord : Bool) : Str → Bool
  | [] => false
  | c :: t => (!prevWord && atP (c :: t)) || scanB atP (isWordChar c) t

/-- `\b(out of stock|sold out|unavailable)\b` at one position. -/
def oosAt (l : Str) : Bool :=
  litEndB "out of stock".data l || litEndB "sold out".data l ||
    litEndB "unavailable".data l

/-- `pre[-\s]?order` followed by `\b`, at one position (the optional
separator is tried with-first, as the `re` engine does). -/
def preOrderAt (l : Str) : Bool :=
  match litP "pre".data l with
  | none => false
  | some r =>
    (match r with
     | c :: r2 => (c = '-' || isPySpace c) && litEndB "order".data r2
     | [] => false) ||
    litEndB "order".data r

/-- `\b(backorder|backordered|pre[-\s]?order|preorder)\b` at one position. -/
def backAt (l : Str) : Bool :=
  litEndB "backorder".data l || litEndB "backordered".data l ||
    preOrderAt l || litEndB "preorder".data l

/-- `only \d+\s+left` followed by `\b`, at one position. Greedy `\d+` and
`\s+` are deterministic here because digits, whitespace and `l` are
pairwise distinct character classes. -/
def onlyLeftAt (l : Str) : Bool :=
  match litP "only ".data l with
  | none => false
  | some r =>
    let ds := r.takeWhile Char.isDigit
    let r2 := r.drop ds.length
    let sp := r2.takeWhile isPySpace
    ds ≠ [] && sp ≠ [] && litEndB "left".data (r2.drop sp.length)

/-- `\b(low stock|only \d+\s+left|limited stock)\b` at one position. -/
def lowStockAt (l : Str) : Bool :=
  litEndB "low stock".data l || onlyLeftAt l || litEndB "limited stock".data l

/-- `\b(in stock|available now|ready to ship)\b` at one position. -/
def inStockAt (l : Str) : Bool :=
  litEndB "in stock".data l || litEndB "available now".data l ||
    litEndB "ready to ship".data l

/-- `_extract_stock_status` (src/main.py lines 51-63). A result of `none`
is the "no category matched" (`Unknown`) outcome. -/
def extract_stock_status (text : Str) : Option Str :=
  if text = [] then none
  else
    let low := pyLower text
    if scanB oosAt false low then some "Out of Stock".data
    else if scanB backAt false low then some "Backordered".data
    else if scanB lowStockAt false low then some "Low Stock".data
    else if scanB inStockAt false low then some "In Stock".data
    else none

/-! ### Generic scanning combinators for the remaining regexes

Each hand-compiled pattern is a function `Str → Option α` matching at one
position; `scanFirst` / `scanFirstB` provide `re.search`'s left-to-right
position scan (the `B` variant also tracks the word-boundary state for
patterns with a leading `\b`).  `firstSome` over `digitCandidates n l`
implements a greedy `\d{1,n}` with the engine's longest-first backtracking
into the continuation. -/

/-- Candidate splits for greedy `\d{1,n}` at the head of `l`,
longest first: `(digits taken, rest)`. -/
def digitCandidates (n : ℕ) (l : Str) : List (Str × Str) :=
  let run := (l.takeWhile Char.isDigit).take n
  (List.range run.length).map
    (fun i => (run.take (run.length - i), l.drop (run.length - i)))

/-- First candidate on which the continuation succeeds. -/
def firstSome {α : Type} : List (Str × Str) → (Str → Str → Option α) → Option α
  | [], _ => none
  | (a, b) :: r, k => (k a b) <|> firstSome r k

/-- `re.search`: first position (left to right) where the position matcher
succeeds. -/
def scanFirst {α : Type} (atP : Str → Option α) : Str → Option α
  | [] => none
  | c :: t => (atP (c :: t)) <|> scanFirst atP t

/-- `re.search` for a pattern with a leading `\b` (the pattern begins with a
word character, so the boundary holds exactly when the previous character is
not a word character). -/
def scanFirstB {α : Type} (atP : Str → Option α) (prevWord : Bool) : Str → Option α
  | [] => none
  | c :: t =>
    (if prevWord then none else atP (c :: t)) <|> scanFirstB atP (isWordChar c) t

/-- ASCII `str.upper` on one character. -/
def upperChar (c : Char) : Char :=
  if 97 ≤ c.toNat ∧ c.toNat ≤ 122 then Char.ofNat (c.toNat - 32) else c

/-- Value of a two-digit cents pair. -/
def centsVal (x y : Char) : ℚ :=
  (((10 * (x.toNat - 48) + (y.toNat - 48) : ℕ)) : ℚ) / 100

/-! ### `_extract_shipping_estimate` (src/main.py lines 66-101)

The source tries seven patterns in order; the handler for a pattern kind
indexes `match.group(n)` by number.  For the first two patterns the group
numbering does not line up with the handler: the `"range"` handler reads
`group(3)` of pattern 1, which is the `(business\s*)?` group, and the
`"single"` handler reads `group(2)` of pattern 2, likewise the business
group — so `int()` is applied to `None` (raising `TypeError`) or to
`"business..."` (raising `ValueError`).  The embedding reproduces this. -/

/-- `(business\s*)?days?` at one position, returning the captured business
group (with-group tried first, as the engine does). -/
def shipOptBusinessGroup (l : Str) : Option (Option Str) :=
  match litP "business".data l with
  | some rb =>
    let sp := rb.takeWhile isPySpace
    if (litP "day".data (rb.drop sp.length)).isSome then
      some (some ("business".data ++ sp))
    else if (litP "day".data l).isSome then some none
    else none
  | none => if (litP "day".data l).isSome then some none else none

/-- `(business\s*)?days?` at one position, as a plain success test. -/
def shipDayAfterOptBusiness (l : Str) : Bool :=
  (shipOptBusinessGroup l).isSome

/-- Pattern 1, `estimated delivery[:\s]+(\d{1,2})\s*[-–]\s*(\d{1,2})\s*(business\s*)?days?`,
at one position; the value is the captured group 3. -/
def shipP1At (l : Str) : Option (Option Str) :=
  (litP "estimated delivery".data l).bind fun r =>
  let sep := r.takeWhile (fun c => c = ':' || isPySpace c)
  if sep.isEmpty then none
  else
    firstSome (digitCandidates 2 (r.drop sep.length)) fun _g1 r2 =>
    match r2.dropWhile isPySpace with
    | c :: r4 =>
      if c = '-' || c = '–' then
        firstSome (digitCandidates 2 (r4.dropWhile isPySpace)) fun _g2 r5 =>
        shipOptBusinessGroup (r5.dropWhile isPySpace)
      else none
    | [] => none

/-- Pattern 2, `estimated delivery[:\s]+(\d{1,2})\s*(business\s*)?days?`,
at one position; the value is the captured group 2. -/
def shipP2At (l : Str) : Option (Option Str) :=
  (litP "estimated delivery".data l).bind fun r =>
  let sep := r.takeWhile (fun c => c = ':' || isPySpace c)
  if sep.isEmpty then none
  else
    firstSome (digitCandidates 2 (r.drop sep.length)) fun _g1 r2 =>
    shipOptBusinessGroup (r2.dropWhile isPySpace)

/-- `(free\s+)?` at one position, feeding the flag and rest to the
continuation (with-group tried first). -/
def freeOpt {α : Type} (l : Str) (k : Bool → Str → Option α) : Option α :=
  (match litP "free".data l with
   | some r =>
     let sp := r.takeWhile isPySpace
     if sp.isEmpty then none else k true (r.drop sp.length)
   | none => none) <|> k false l

/-- Pattern 3, `(free\s+)?(\d{1,2})\s*[-–]\s*(\d{1,2})\s*(business\s*)?days?`. -/
def shipP3At (l : Str) : Option (Bool × ℕ × ℕ) :=
  freeOpt l fun freeF r1 =>
  firstSome (digitCandidates 2 r1) fun g2 r2 =>
  match r2.dropWhile isPySpace with
  | c :: r3 =>
    if c = '-' || c = '–' then
      firstSome (digitCandidates 2 (r3.dropWhile isPySpace)) fun g3 r4 =>
      if shipDayAfterOptBusiness (r4.dropWhile isPySpace) then
        some (freeF, digitsNat g2, digitsNat g3)
      else none
    else none
  | [] => none

/-- Pattern 4, `(free\s+)?(\d{1,2})\s*day shipping`. -/
def shipP4At (l : Str) : Option (Bool × ℕ) :=
  freeOpt l fun freeF r1 =>
  firstSome (digitCandidates 2 r1) fun g2 r2 =>
  if (litP "day shipping".data (r2.dropWhile isPySpace)).isSome then
    some (freeF, digitsNat g2)
  else none

/-- `ships?\s+in\s+` at one position (the optional `s` tried with-first). -/
def shipsInPrefix (l : Str) : Option Str :=
  (litP "ship".data l).bind fun r =>
  let core : Str → Option Str := fun r1 =>
    let sp := r1.takeWhile isPySpace
    if sp.isEmpty then none
    else
      (litP "in".data (r1.drop sp.length)).bind fun r2 =>
      let sp2 := r2.takeWhile isPySpace
      if sp2.isEmpty then none else some (r2.drop sp2.length)
  (match r with
   | 's' :: r2 => core r2
   | _ => none) <|> core r

/-- Pattern 5, `ships?\s+in\s+(\d{1,2})\s*(business\s*)?days?`. -/
def shipP5At (l : Str) : Option ℕ :=
  (shipsInPrefix l).bind fun r =>
  firstSome (digitCandidates 2 r) fun g1 r2 =>
  if shipDayAfterOptBusiness (r2.dropWhile isPySpace) then some (digitsNat g1)
  else none

/-- Pattern 6, `ships?\s+in\s+(\d{1,2})\s*(week|weeks)`. -/
def shipP6At (l : Str) : Option ℕ :=
  (shipsInPrefix l).bind fun r =>
  firstSome (digitCandidates 2 r) fun g1 r2 =>
  if (litP "week".data (r2.dropWhile isPySpace)).isSome then some (digitsNat g1)
  else none

/-- Pattern 7, `delivery in\s+(\d{1,2})\s*(business\s*)?days?`. -/
def shipP7At (l : Str) : Option ℕ :=
  (litP "delivery in".data l).bind fun r =>
  let sp := r.takeWhile isPySpace
  if sp.isEmpty then none
  else
    firstSome (digitCandidates 2 (r.drop sp.length)) fun g1 r2 =>
    if shipDayAfterOptBusiness (r2.dropWhile isPySpace) then some (digitsNat g1)
    else none

/-- `_extract_shipping_estimate` (src/main.py lines 66-101). An `Except`
error is an uncaught `int()` exception from the mismatched group numbers of
patterns 1 and 2. -/
def extract_shipping_estimate (text : Str) : Except PyExn (Option Str × Option ℚ) :=
  if text = [] then .ok (none, none)
  else
    let low := pyLower text
    match scanFirst shipP1At low with
    | some g => .error (match g with | some _ => .valueError | none => .typeError)
    | none =>
    match scanFirst shipP2At low with
    | some g => .error (match g with | some _ => .valueError | none => .typeError)
    | none =>
    match scanFirst shipP3At low with
    | some (f, lo, hi) =>
      let label :=
        if f then
          "Free ".data ++ natStr lo ++ "-".data ++ natStr hi ++ " day shipping".data
        else
          "Ships in ".data ++ natStr lo ++ "-".data ++ natStr hi ++ " days".data
      .ok (some label, some (((lo : ℚ) + (hi : ℚ)) / 2))
    | none =>
    match scanFirst shipP4At low with
    | some (f, d) =>
      let label :=
        if f then "Free ".data ++ natStr d ++ "-day shipping".data
        else natStr d ++ "-day shipping".data
      .ok (some label, some (d : ℚ))
    | none =>
    match scanFirst shipP5At low with
    | some d => .ok (some ("Ships in ".data ++ natStr d ++ " days".data), some (d : ℚ))
    | none =>
    match scanFirst shipP6At low with
    | some w =>
      .ok (some ("Ships in ".data ++ natStr w ++ " weeks".data), some ((w * 7 : ℕ) : ℚ))
    | none =>
    match scanFirst shipP7At low with
    | some d => .ok (some ("Ships in ".data ++ natStr d ++ " days".data), some (d : ℚ))
    | none => .ok (none, none)

/-! ### `_extract_discount_code` (src/main.py lines 104-127) -/

/-- The alternation `(?:code|promo code|coupon code|use code)` at one
position (the alternatives are pairwise prefix-incompatible, so the
in-order `<|>` is the exact engine behaviour). -/
def codeKw (l : Str) : Option Str :=
  litP "code".data l <|> litP "promo code".data l <|>
    litP "coupon code".data l <|> litP "use code".data l

/-- `\b(?:code|...)\s*[:\-]?\s*([a-z0-9]{3,12})\b` at one position (the
leading `\b` is handled by `scanFirstB`).  A maximal `[a-z0-9]` run longer
than 12 can never satisfy the trailing `\b` under backtracking, hence the
length test. -/
def codeTokenAt (l : Str) : Option Str :=
  (codeKw l).bind fun r =>
  let r1 := r.dropWhile isPySpace
  let core : Str → Option Str := fun r2 =>
    let r3 := r2.dropWhile isPySpace
    let run := r3.takeWhile (fun c => c.isDigit || (97 ≤ c.toNat && c.toNat ≤ 122))
    if 3 ≤ run.length && run.length ≤ 12 && endB (r3.drop run.length) then some run
    else none
  match r1 with
  | c :: r2 => if c = ':' || c = '-' then core r2 <|> core r1 else core r1
  | [] => core r1

/-- `\b(\d{1,2})\s*%?\s*off\b` at one position (leading `\b` via
`scanFirstB`). -/
def discountPctAt (l : Str) : Option Str :=
  firstSome (digitCandidates 2 l) fun g r =>
  let r1 := r.dropWhile isPySpace
  let fin : Str → Option Str := fun r2 =>
    if litEndB "off".data (r2.dropWhile isPySpace) then some g else none
  (match r1 with
   | '%' :: r2 => fin r2
   | _ => none) <|> fin r1

/-- `\$\s*(\d{1,4})\s*off\b` at one position. -/
def dollarsOffAt (l : Str) : Option Str :=
  match l with
  | '$' :: r =>
    firstSome (digitCandidates 4 (r.dropWhile isPySpace)) fun g r2 =>
    if litEndB "off".data (r2.dropWhile isPySpace) then some g else none
  | _ => none

/-- `\b(sale|discount|promo|promotion)\b` at one position. -/
def saleKwAt (l : Str) : Bool :=
  litEndB "sale".data l || litEndB "discount".data l ||
    litEndB "promo".data l || litEndB "promotion".data l

/-- `_extract_discount_code` (src/main.py lines 104-127). -/
def extract_discount_code (text : Str) : Option Str :=
  if text = [] then none
  else
    let low := pyLower text
    let code := (scanFirstB codeTokenAt false low).map (List.map upperChar)
    let amount : Option Str :=
      match scanFirstB discountPctAt false low with
      | some g => some (g ++ "% off".data)
      | none =>
        match scanFirst dollarsOffAt low with
        | some g => some ("$".data ++ g ++ " off".data)
        | none => none
    match code, amount with
    | some c, some a => some (a ++ " (CODE ".data ++ c ++ ")".data)
    | some c, none => some ("CODE ".data ++ c)
    | none, some a => some a
    | none, none =>
      if scanB saleKwAt false low then some "Promo active".data else none

/-! ### `_extract_shipping_cost` (src/main.py lines 130-144) -/

/-- `shipping\s*(?:costs|is|:)?\s*\$?\s*(\d{1,4}(?:\.\d{2})?)` at one
position; the value is `float(group(1))`. -/
def shipCost1At (l : Str) : Option ℚ :=
  (litP "shipping".data l).bind fun r =>
  let r1 := r.dropWhile isPySpace
  let tailF : Str → Option ℚ := fun r2 =>
    let a := r2.dropWhile isPySpace
    let b := match a with
      | '$' :: x => x.dropWhile isPySpace
      | _ => a
    let ds := (b.takeWhile Char.isDigit).take 4
    if ds.isEmpty then none
    else
      match b.drop ds.length with
      | '.' :: x :: y :: _ =>
        if x.isDigit && y.isDigit then some ((digitsNat ds : ℚ) + centsVal x y)
        else some (digitsNat ds : ℚ)
      | _ => some (digitsNat ds : ℚ)
  ((litP "costs".data r1).bind tailF) <|> ((litP "is".data r1).bind tailF) <|>
    (match r1 with
     | ':' :: x => tailF x
     | _ => none) <|> tailF r1

/-- `\$\s*(\d{1,4}(?:\.\d{2})?)\s*shipping` at one position. -/
def shipCost2At (l : Str) : Option ℚ :=
  match l with
  | '$' :: r =>
    firstSome (digitCandidates 4 (r.dropWhile isPySpace)) fun ds r2 =>
    (match r2 with
     | '.' :: x :: y :: r3 =>
       if x.isDigit && y.isDigit &&
           (litP "shipping".data (r3.dropWhile isPySpace)).isSome then
         some ((digitsNat ds : ℚ) + centsVal x y)
       else none
     | _ => none) <|>
      (if (litP "shipping".data (r2.dropWhile isPySpace)).isSome then
        some (digitsNat ds : ℚ)
      else none)
  | _ => none

/-- `\bfree shipping\b` at one position. -/
def freeShippingAt (l : Str) : Bool :=
  litEndB "free shipping".data l

/-- `_extract_shipping_cost` (src/main.py lines 130-144). -/
def extract_shipping_cost (text : Str) : Option ℚ :=
  if text = [] then none
  else
    let low := pyLower text
    if scanB freeShippingAt false low then some 0
    else
      match scanFirst shipCost1At low with
      | some v => some v
      | none =>
        match scanFirst shipCost2At low with
        | some v => some v
        | none => none

/-! ### `_extract_warranty_years` (src/main.py lines 147-158)

`re.IGNORECASE` over all-lowercase ASCII patterns is modelled by searching
the lowercased text. -/

/-- `(?:year|yr)` at one position (prefix-incompatible after `y`, so
in-order `<|>` is exact). -/
def yearYr (l : Str) : Option Str :=
  litP "year".data l <|> litP "yr".data l

/-- `(\d{1,2})\s*(?:year|yr)\s*warranty` at one position. -/
def warranty1At (l : Str) : Option ℕ :=
  firstSome (digitCandidates 2 l) fun g r =>
  (yearYr (r.dropWhile isPySpace)).bind fun r2 =>
  if (litP "warranty".data (r2.dropWhile isPySpace)).isSome then some (digitsNat g)
  else none

/-- `warranty\s*(?:of|:)?\s*(\d{1,2})\s*(?:year|yr)` at one position. -/
def warranty2At (l : Str) : Option ℕ :=
  (litP "warranty".data l).bind fun r =>
  let r1 := r.dropWhile isPySpace
  let core : Str → Option ℕ := fun r2 =>
    firstSome (digitCandidates 2 (r2.dropWhile isPySpace)) fun g r3 =>
    if (yearYr (r3.dropWhile isPySpace)).isSome then some (digitsNat g) else none
  ((litP "of".data r1).bind core) <|>
    (match r1 with
     | ':' :: x => core x
     | _ => none) <|> core r1

/-- `_extract_warranty_years` (src/main.py lines 147-158). -/
def extract_warranty_years (text : Str) : Option ℕ :=
  if text = [] then none
  else
    let low := pyLower text
    match scanFirst warranty1At low with
    | some n => some n
    | none =>
      match scanFirst warranty2At low with
      | some n => some n
      | none => none

/-! ### `_extract_review_count` (src/main.py lines 161-173) -/

/-- `(\d{1,3}(?:,\d{3})+)\s+(?:reviews|ratings)\b` at one position; the
value is `int(group(1).replace(",", ""))`.  Taking fewer comma groups than
the greedy maximum always leaves a `,` where `\s+` is required, so the
greedy maximum is the exact engine behaviour. -/
def review1At (l : Str) : Option ℕ :=
  firstSome (digitCandidates 3 l) fun lead r =>
  let gsr := takeGroups r
  if gsr.1.isEmpty then none
  else
    let sp := gsr.2.takeWhile isPySpace
    if sp.isEmpty then none
    else
      let r3 := gsr.2.drop sp.length
      if litEndB "reviews".data r3 || litEndB "ratings".data r3 then
        some (digitsNat (lead ++ gsr.1.filter Char.isDigit))
      else none

/-- `\b(\d{1,5})\s+(?:reviews|ratings)\b` at one position (leading `\b`
via `scanFirstB`). -/
def review2At (l : Str) : Option ℕ :=
  firstSome (digitCandidates 5 l) fun g r =>
  let sp := r.takeWhile isPySpace
  if sp.isEmpty then none
  else
    let r2 := r.drop sp.length
    if litEndB "reviews".data r2 || litEndB "ratings".data r2 then
      some (digitsNat g)
    else none

/-- `_extract_review_count` (src/main.py lines 161-173). -/
def extract_review_count (text : Str) : Option ℕ :=
  if text = [] then none
  else
    let low := pyLower text
    match scanFirst review1At low with
    | some n => some n
    | none =>
      match scanFirstB review2At false low with
      | some n => some n
      | none => none

/-! ### Network layer (`_fetch_json`, src/main.py lines 230-247)

The HTTP transport and the JSON decoding of a response body are external
effects, modelled by an oracle from the target URL to a `NetResult`:
`exn` is a raised `httpx` exception (caught by `_fetch_json`), `resp` is a
response with its status code and the result of decoding its body
(`response.json()` falling back to `_parse_json(response.text)`), where a
body of `none` means both decodes failed.  Headers do not influence the
modelled behaviour and are dropped. -/

/-- Outcome of one `httpx.get`, as observed by `_fetch_json`. -/
inductive NetResult where
  | exn : Str → NetResult
  | resp : ℤ → Option JValue → NetResult

/-- The network oracle: target URL to outcome. -/
abbrev Net := Str → NetResult

/-- `x or "default"` for a possibly-`None` Python string. -/
def pyOrStrD (x : Option Str) (d : Str) : Str :=
  match x with
  | some s => if s = [] then d else s
  | none => d

/-- The error string interpolated into `f"...: {error}"` (Python renders
`None` as `"None"`). -/
def errStr (x : Option Str) : Str :=
  match x with
  | some s => s
  | none => "None".data

/-- `_fetch_json` (src/main.py lines 230-247): returns `(data, error)`. -/
def fetch_json (net : Net) (url : Str) (useJina : Bool) : Option JValue × Option Str :=
  let target := if useJina then "https://r.jina.ai/".data ++ url else url
  match net target with
  | .exn msg => (none, some msg)
  | .resp st body =>
    if st ≠ 200 then (none, some ("Status ".data ++ intStr st))
    else
      match body with
      | some v => (some v, none)
      | none => (none, some "Invalid JSON".data)

/-! ### Candidate construction (src/main.py lines 6-23, 193-228) -/

/-- Order-preserving deduplication (`seen` set plus `ordered` list). -/
def dedupe (l : List Str) : List Str :=
  l.foldl (fun acc h => if h ∈ acc then acc else acc ++ [h]) []

/-- `_vendor_candidates` (src/main.py lines 6-23). -/
def vendor_candidates (vendor : Str) : List Str :=
  let c1 := removeAll "http://".data (removeAll "https://".data (pyStrip vendor))
  let cleaned := pyStripChar (fun c => c = '/') c1
  if cleaned = [] then []
  else
    let candidates :=
      if ("www.".data).isPrefixOf cleaned then [cleaned, cleaned.drop 4]
      else [cleaned, "www.".data ++ cleaned]
    candidates.foldl (fun acc h => if h ≠ [] ∧ h ∉ acc then acc ++ [h] else acc) []

/-- `_path_candidates` (src/main.py lines 193-209). -/
def path_candidates (handle : Str) : List Str :=
  let c0 := pyStrip handle
  let c := match c0 with
    | '/' :: t => t
    | _ => c0
  if c = [] then []
  else dedupe ["/products/".data ++ c ++ ".js".data, "/".data ++ c ++ ".js".data]

/-- `_page_candidates` (src/main.py lines 211-228). -/
def page_candidates (handle : Str) : List Str :=
  let c0 := pyStrip handle
  let c := match c0 with
    | '/' :: t => t
    | _ => c0
  let base := if c = [] then [] else ["/".data ++ c, "/products/".data ++ c]
  dedupe (base ++ ["/".data])

/-! ### `_extract_price_from_jina` (src/main.py lines 174-183) -/

/-- `_extract_price_from_jina`: a `TypeError` arises when the `content`
field is truthy but not a string (Python's `re.search` then raises at the
first extractor call on it). -/
def extract_price_from_jina (data : JValue) : Except PyExn (Option ℚ × Option JValue) :=
  let payload :=
    match data with
    | .jobj _ =>
      match jget data "data" with
      | some (JValue.jobj inner) => JValue.jobj inner
      | _ => data
    | _ => data
  match payload with
  | .jobj _ =>
    let title := jget payload "title"
    match jget payload "content" with
    | some v =>
      if jTruthy v then
        match v with
        | .jstr s => .ok (extract_first_price s.data, title)
        | _ => .error .typeError
      else .ok (extract_first_price [], title)
    | none => .ok (extract_first_price [], title)
  | _ => .ok (none, none)

/-! ### `fetch_shopify_js` (src/main.py lines 249-302)

The nested loops (`for host: for js-path: ...; for page-path: ...`) with
early `return` are flattened into one candidate list tried in order, with
`last_error` threaded exactly as the source updates it; this preserves the
iteration order and the early-return behaviour verbatim. -/

/-- A division `raw / 100` as Python performs it on a decoded JSON field
(`bool` is an `int` in Python; any other non-numeric value raises
`TypeError`). -/
def jdiv100 : JValue → Except PyExn ℚ
  | .jnum q => .ok (q / 100)
  | .jbool b => .ok ((if b then (1 : ℚ) else 0) / 100)
  | _ => .error .typeError

/-- One fetch candidate: host, path, and whether it is a jina page fetch. -/
abbrev Cand := Str × Str × Bool

/-- A network call actually issued: target URL and whether via the jina
proxy. -/
structure Call where
  url : Str
  jina : Bool
deriving DecidableEq

/-- The URL a candidate fetches. -/
def candCall (c : Cand) : Call :=
  ⟨(if c.2.2 then "https://r.jina.ai/".data else []) ++ "https://".data ++ c.1 ++ c.2.1,
    c.2.2⟩

/-- The flattened candidate order of `fetch_shopify_js`: per host, all
`.js` paths, then all jina page paths. -/
def flatCands (vendor handle : Str) : List Cand :=
  (vendor_candidates vendor).flatMap fun h =>
    ((path_candidates handle).map fun p => ((h, p, false) : Cand)) ++
      ((page_candidates handle).map fun p => ((h, p, true) : Cand))

/-- A fetched product, i.e. the `"status": "success"` dict built by
`fetch_shopify_js`. -/
structure ShopifyResult where
  vendor : Str
  product : JValue
  current_price : ℚ
  msrp : Option ℚ
  on_sale : Option Bool
  source : Str
  raw : Option JValue

/-- Result of the whole cascade: the success dict or the error dict. -/
inductive FetchOutcome where
  | success : ShopifyResult → FetchOutcome
  | failure : Str → Str → FetchOutcome

/-- Try one candidate: `ok (some r)` is an early success return, `ok none`
a failure with its `last_error` message, `error` an uncaught exception. -/
def tryCand (net : Net) (handle : Str) (includeRaw : Bool) (c : Cand) :
    Except PyExn (Option ShopifyResult) × Str :=
  let host := c.1
  let path := c.2.1
  if c.2.2 = false then
    let dj := fetch_json net ("https://".data ++ host ++ path) false
    match dj.1 with
    | some data =>
      if jTruthy data then
        match data with
        | .jobj _ =>
          match jget data "price" with
          | none => (.ok none, host ++ path ++ ": Missing price".data)
          | some pv =>
            match jdiv100 pv with
            | .error e => (.error e, [])
            | .ok price =>
              let compareE : Except PyExn (Option ℚ) :=
                match jget data "compare_at_price" with
                | some cv =>
                  if jTruthy cv then
                    match jdiv100 cv with
                    | .error e => .error e
                    | .ok ca => .ok (some ca)
                  else .ok none
                | none => .ok none
              match compareE with
              | .error e => (.error e, [])
              | .ok compare_at =>
                (.ok (some
                  { vendor := host
                    product := (jget data "title").getD .jnull
                    current_price := price
                    msrp := compare_at
                    on_sale := some (match compare_at with
                      | some ca => decide (price < ca)
                      | none => false)
                    source := "shopify_js".data
                    raw := if includeRaw then some data else none }), [])
        | _ => (.error .attributeError, [])
      else (.ok none, host ++ path ++ ": ".data ++ errStr dj.2)
    | none => (.ok none, host ++ path ++ ": ".data ++ errStr dj.2)
  else
    let dj := fetch_json net ("https://".data ++ host ++ path) true
    match dj.1 with
    | some data =>
      if jTruthy data then
        match extract_price_from_jina data with
        | .error e => (.error e, [])
        | .ok (none, _t) => (.ok none, host ++ path ++ " (jina): Price not found".data)
        | .ok (some p, t) =>
          (.ok (some
            { vendor := host
              product := (match t with
                | some tv => if jTruthy tv then tv else .jstr (String.mk handle)
                | none => .jstr (String.mk handle))
              current_price := p
              msrp := none
              on_sale := none
              source := "jina".data
              raw := if includeRaw then some data else none }), [])
      else (.ok none, host ++ path ++ " (jina): ".data ++ errStr dj.2)
    | none => (.ok none, host ++ path ++ " (jina): ".data ++ errStr dj.2)

/-- Run the candidate list in order, threading `last_error`, recording the
fetch calls actually made, and returning at the first success. -/
def runCands (net : Net) (vendor handle : Str) (includeRaw : Bool) :
    List Cand → Option Str → Except PyExn FetchOutcome × List Call
  | [], le => (.ok (.failure vendor (pyOrStrD le "No vendor candidates".data)), [])
  | c :: rest, _le =>
    match tryCand net handle includeRaw c with
    | (.error e, _) => (.error e, [candCall c])
    | (.ok (some r), _) => (.ok (.success r), [candCall c])
    | (.ok none, m) =>
      let rec' := runCands net vendor handle includeRaw rest (some m)
      (rec'.1, candCall c :: rec'.2)

/-- `fetch_shopify_js` (src/main.py lines 249-302), with its fetch-call
trace. -/
def fetch_shopify_js (net : Net) (vendor handle : Str) (includeRaw : Bool) :
    Except PyExn FetchOutcome × List Call :=
  runCands net vendor handle includeRaw (flatCands vendor handle) none

/-! ### `_normalize_url`, URL parsing, `get_price` (src/main.py lines 185-191, 304-319) -/

/-- `_normalize_url` (src/main.py lines 185-191); the argument may be
Python `None`. -/
def normalize_url (url : Option Str) : Option Str :=
  let cleaned := pyStrip (url.getD [])
  if cleaned = [] then none
  else if ("http://".data).isPrefixOf cleaned ∨ ("https://".data).isPrefixOf cleaned then
    some cleaned
  else some ("https://".data ++ cleaned.dropWhile (fun c => c = '/'))

/-- `urlparse(full).netloc` and `.path` for the scheme-carrying URLs
`_normalize_url` produces. -/
def urlHostPath (full : Str) : Str × Str :=
  let rest :=
    if ("https://".data).isPrefixOf full then full.drop 8
    else if ("http://".data).isPrefixOf full then full.drop 7
    else []
  if ("https://".data).isPrefixOf full ∨ ("http://".data).isPrefixOf full then
    let netloc := rest.takeWhile (fun c => c ≠ '/' && c ≠ '?' && c ≠ '#')
    let after := rest.drop netloc.length
    (netloc, after.takeWhile (fun c => c ≠ '?' && c ≠ '#'))
  else ([], full)

/-- `parsed.path.strip("/").split("/")[-1] if parsed.path.strip("/") else ""`. -/
def handleOf (path : Str) : Str :=
  let s := pyStripChar (fun c => c = '/') path
  if s = [] then []
  else (s.splitOn '/').getLastD []

deriving instance DecidableEq for Except

/-- The observable behaviour of one `get_price` call: its return value (or
uncaught exception), the fetch calls made inside `fetch_shopify_js`, and
whether the fallback jina proxy fetch (src/main.py line 315) was reached. -/
structure GPRes where
  res : Except PyExn (Option ℚ)
  shopifyCalls : List Call
  proxyCalled : Bool
deriving DecidableEq

/-- `get_price` (src/main.py lines 304-319). -/
def get_price (net : Net) (url : Option Str) : GPRes :=
  match normalize_url url with
  | none => ⟨.ok none, [], false⟩
  | some full =>
    let hp := urlHostPath full
    let host := hp.1
    let handle := handleOf hp.2
    let proxyStep : List Call → GPRes := fun calls =>
      let dj := fetch_json net full true
      match dj.1 with
      | some data =>
        if jTruthy data then
          match extract_price_from_jina data with
          | .ok (p, _t) => ⟨.ok p, calls, true⟩
          | .error e => ⟨.error e, calls, true⟩
        else ⟨.ok none, calls, true⟩
      | none => ⟨.ok none, calls, true⟩
    if host ≠ [] ∧ handle ≠ [] then
      match fetch_shopify_js net host handle false with
      | (.error e, calls) => ⟨.error e, calls, false⟩
      | (.ok (.success r), calls) => ⟨.ok (some r.current_price), calls, false⟩
      | (.ok (.failure _ _), calls) => proxyStep calls
    else proxyStep []

/-! ### `get_product_snapshot` (src/main.py lines 322-383) -/

def PLACEHOLDER_MANUAL : String := "Manual Audit Required"

def PLACEHOLDER_PENDING : String := "Data Pending"

/-- The snapshot dictionary: insertion-ordered keys with JSON values. -/
abbrev SnapDict := List (String × JValue)

/-- Python dict assignment `d[k] = v`: replace in place, else append. -/
def dictSetJ (d : SnapDict) (k : String) (v : JValue) : SnapDict :=
  if d.any (fun kv => kv.1 = k) then
    d.map (fun kv => if kv.1 = k then (k, v) else kv)
  else d ++ [(k, v)]

/-- `snapshot.get(k)`: the stored value, `None` when absent. -/
def getJD (d : SnapDict) (k : String) : JValue :=
  ((d.find? (fun kv => kv.1 = k)).map (fun kv => kv.2)).getD .jnull

/-- `_needs_placeholder` (src/main.py lines 326-331). -/
def needs_placeholder : JValue → Bool
  | .jnull => true
  | .jstr s =>
    let t := String.mk (pyLower (pyStrip s.data))
    t = "" || t = "n/a" || t = "na" || t = "--"
  | _ => false

def jIsNull : JValue → Bool
  | .jnull => true
  | _ => false

def optStrJ : Option Str → JValue
  | some s => .jstr (String.mk s)
  | none => .jnull

def optNumJ : Option ℚ → JValue
  | some q => .jnum q
  | none => .jnull

/-- The placeholder-substitution step of `get_product_snapshot`
(src/main.py lines 376-381). -/
def applyPlaceholders (d : SnapDict) : SnapDict :=
  let d1 :=
    if needs_placeholder (getJD d "stock_status") then
      dictSetJ d "stock_status" (.jstr PLACEHOLDER_MANUAL)
    else d
  let d2 :=
    if needs_placeholder (getJD d1 "shipping_estimate") && jIsNull (getJD d1 "shipping_days") then
      dictSetJ d1 "shipping_estimate" (.jstr PLACEHOLDER_PENDING)
    else d1
  if needs_placeholder (getJD d2 "discount") then
    dictSetJ d2 "discount" (.jstr PLACEHOLDER_PENDING)
  else d2

/-- The initial snapshot dict (src/main.py lines 342-351). -/
def snapInit : SnapDict :=
  [("price", .jnull), ("stock_status", .jnull), ("shipping_estimate", .jnull),
   ("shipping_days", .jnull), ("shipping_cost", .jnull), ("discount", .jnull),
   ("review_count", .jnull), ("warranty_years", .jnull)]

/-- `get_product_snapshot` (src/main.py lines 334-383). -/
def get_product_snapshot (net : Net) (url : Option Str) : Except PyExn SnapDict :=
  match normalize_url url with
  | none => .ok []
  | some full =>
    let hp := urlHostPath full
    let host := hp.1
    let handle := handleOf hp.2
    let step1 : Except PyExn SnapDict :=
      if host ≠ [] ∧ handle ≠ [] then
        match (fetch_shopify_js net host handle true).1 with
        | .error e => .error e
        | .ok (.success r) => .ok (dictSetJ snapInit "price" (.jnum r.current_price))
        | .ok (.failure _ _) => .ok snapInit
      else .ok snapInit
    match step1 with
    | .error e => .error e
    | .ok snap1 =>
      let dj := fetch_json net full true
      match dj.1 with
      | some data =>
        if jTruthy data then
          let contentE : Except PyExn Str :=
            match data with
            | .jobj _ =>
              let payload :=
                match jget data "data" with
                | some pv => pv
                | none => data
              match payload with
              | .jobj _ =>
                match jget payload "content" with
                | some v =>
                  if jTruthy v then
                    match v with
                    | .jstr s => .ok s.data
                    | _ => .error .typeError
                  else .ok []
                | none => .ok []
              | _ => .error .attributeError
            | _ => .ok []
          match contentE with
          | .error e => .error e
          | .ok content =>
            let snap2 := dictSetJ snap1 "stock_status" (optStrJ (extract_stock_status content))
            match extract_shipping_estimate content with
            | .error e => .error e
            | .ok (lbl, days) =>
              let snap3 := dictSetJ snap2 "shipping_estimate" (optStrJ lbl)
              let snap4 := dictSetJ snap3 "shipping_days" (optNumJ days)
              let snap5 := dictSetJ snap4 "shipping_cost" (optNumJ (extract_shipping_cost content))
              let snap6 := dictSetJ snap5 "discount" (optStrJ (extract_discount_code content))
              let snap7 := dictSetJ snap6 "review_count"
                (optNumJ ((extract_review_count content).map (fun n => (n : ℚ))))
              let snap8 := dictSetJ snap7 "warranty_years"
                (optNumJ ((extract_warranty_years content).map (fun n => (n : ℚ))))
              let finE : Except PyExn SnapDict :=
                if jIsNull (getJD snap8 "price") then
                  match extract_price_from_jina data with
                  | .error e => .error e
                  | .ok (p, _t) => .ok (dictSetJ snap8 "price" (optNumJ p))
                else .ok snap8
              match finE with
              | .error e => .error e
              | .ok snap9 => .ok (applyPlaceholders snap9)
        else .ok (applyPlaceholders snap1)
      | none => .ok (applyPlaceholders snap1)

/-! ### `supabase_db._request` (src/supabase_db.py lines 57-105)

One attempt's outcome is an oracle value: a response (status code, whether
`r.text` is empty, and the `r.json()` decode result, `none` meaning the
decode raises), a retryable exception (`ReadTimeout`, `ConnectTimeout`,
`RemoteProtocolError` — the classes the `except` clause catches), or any
other exception from `httpx.request`, which propagates uncaught.
`time.sleep(min(2 ** (attempt - 1), 16))` is recorded as a trace event.
The final `raise last_exc or RuntimeError(...)` after five retryable
attempts is the single `exhausted` error. -/

def RETRYABLE_STATUS : List ℤ := [408, 429, 500, 502, 503, 504]

/-- Outcome of one `httpx.request` call. -/
inductive HAttempt where
  | resp : ℤ → Bool → Option JValue → HAttempt
  | retryExn : HAttempt
  | fatalExn : HAttempt

/-- Exceptions `_request` can raise to its caller. -/
inductive ReqErr where
  | statusError : ℤ → ReqErr
  | jsonError : ReqErr
  | fatal : ReqErr
  | exhausted : ReqErr
deriving DecidableEq

/-- Trace events of one `_request` call: attempts made and sleeps taken. -/
inductive RqEv where
  | tried : ℕ → RqEv
  | slept : ℕ → RqEv
deriving DecidableEq

/-- `min(2 ** (attempt - 1), 16)`. -/
def backoff (k : ℕ) : ℕ := min (2 ^ (k - 1)) 16

/-- Whether an attempt outcome is retried by `_request`. -/
def retryableAttempt : HAttempt → Bool
  | .resp s _ _ => RETRYABLE_STATUS.contains s
  | .retryExn => true
  | .fatalExn => false

/-- Settling a non-retryable-status response: `raise_for_status()` raises
for any non-2xx status; 204/empty-body returns `None`; otherwise
`r.json()` (whose decode failure propagates). -/
def settleResp (status : ℤ) (textEmpty : Bool) (json : Option JValue) :
    Except ReqErr (Option JValue) :=
  if ¬(200 ≤ status ∧ status < 300) then .error (.statusError status)
  else if status = 204 ∨ textEmpty then .ok none
  else
    match json with
    | some v => .ok (some v)
    | none => .error .jsonError

/-- How a non-retried attempt settles (`retryExn` is always retried, so its
value here is never observable). -/
def settleAttempt : HAttempt → Except ReqErr (Option JValue)
  | .resp s te j => settleResp s te j
  | .retryExn => .error .fatal
  | .fatalExn => .error .fatal

/-- The attempt loop of `_request` over the remaining attempt numbers. -/
def requestFrom (o : ℕ → HAttempt) : List ℕ → Except ReqErr (Option JValue) × List RqEv
  | [] => (.error .exhausted, [])
  | k :: rest =>
    match o k with
    | .resp s te j =>
      if RETRYABLE_STATUS.contains s then
        let r := requestFrom o rest
        (r.1, .tried k :: .slept (backoff k) :: r.2)
      else (settleResp s te j, [.tried k])
    | .retryExn =>
      let r := requestFrom o rest
      (r.1, .tried k :: .slept (backoff k) :: r.2)
    | .fatalExn => (.error .fatal, [.tried k])

/-- `_request` (src/supabase_db.py lines 57-105): `for attempt in range(1, 6)`. -/
def request (o : ℕ → HAttempt) : Except ReqErr (Option JValue) × List RqEv :=
  requestFrom o [1, 2, 3, 4, 5]

/-! ### Worker data model (src/supabase_db.py lines 9-27) -/

structure CompetitorTrack where
  id : ℤ
  product_id : ℤ
  name : String
  url : String
  last_price : Option ℚ
  last_checked : Option String
deriving DecidableEq

structure ClientProduct where
  id : ℤ
  product_name : String
  base_url : String
  slack_channel_id : Option String
  slack_team_id : Option String
  client_price : Option ℚ
  competitors : List CompetitorTrack
deriving DecidableEq

/-- `_prices_changed` (src/worker.py lines 13-18). -/
def prices_changed (old_price new_price : Option ℚ) : Bool :=
  match new_price with
  | none => false
  | some np =>
    match old_price with
    | none => true
    | some op => decide (op ≠ np)

/-! ### Guardian state file (src/worker.py lines 25-64)

The filesystem read is an oracle: `missing` is `FileNotFoundError`,
`ioError` any other `open`/read failure, `badJson` a `json.load` decode
failure, `parsed v` a successfully decoded JSON value.  `json.dump` of the
payload followed by the atomic `os.replace` is modelled by the written
`JValue` itself; saving then reloading is `load_initial_alert_state
(.parsed (save_initial_alert_state st))`. -/

def STATE_KEY : String := "initial_alert_channels_by_product"

inductive FileRead where
  | missing : FileRead
  | ioError : FileRead
  | badJson : FileRead
  | parsed : JValue → FileRead

/-- Association list standing for an insertion-ordered Python dict of
strings. -/
abbrev SDict := List (String × String)

/-- Python dict assignment `d[k] = v` on the string dict. -/
def dictSetS (st : SDict) (k v : String) : SDict :=
  if st.any (fun kv => kv.1 = k) then
    st.map (fun kv => if kv.1 = k then (k, v) else kv)
  else st ++ [(k, v)]

/-- The normalisation loop of `_load_initial_alert_state`
(src/worker.py lines 43-49). -/
def normStep (acc : SDict) (kv : String × JValue) : SDict :=
  let key := String.mk (pyStrip kv.1.data)
  match kv.2 with
  | .jstr s =>
    if key ≠ "" ∧ pyStrip s.data ≠ [] then
      dictSetS acc key (String.mk (pyStrip s.data))
    else acc
  | _ => acc

def normalizeRows (rows : List (String × JValue)) : SDict :=
  rows.foldl normStep []

/-- `_load_initial_alert_state` (src/worker.py lines 25-49). -/
def load_initial_alert_state : FileRead → SDict
  | .missing => []
  | .ioError => []
  | .badJson => []
  | .parsed v =>
    match v with
    | .jobj kvs =>
      match (kvs.find? (fun kv => kv.1 = STATE_KEY)).map (fun kv => kv.2) with
      | some (JValue.jobj rows) => normalizeRows rows
      | some _ => []
      | none => []
    | _ => []

/-- `_save_initial_alert_state` (src/worker.py lines 52-64): the JSON
payload written to the state file. -/
def save_initial_alert_state (st : SDict) : JValue :=
  .jobj [(STATE_KEY, .jobj (st.map (fun kv => (kv.1, .jstr kv.2))))]

/-! ### `check_all_prices` (src/worker.py lines 80-170)

The collaborators are oracles: `scraper` is the duck-typed
`scraper.get_price`; `alertRaises a` tells whether `alert_fn(**a)` raises;
`initialAlert` is `initial_alert_fn` (absent = Python `None`);
`dbCompFail`/`dbProdFail` tell whether `update_competitor` /
`update_client_product` raises (after its internal retries, §`_request`).
The observable behaviour is the ordered event list plus whether the call
completed (`false` = an uncaught exception terminated it; the events are
those that happened before it). Successful persistence calls are recorded
as `updClient`/`updComp` events; `updComp id none` is the
unchanged-price call that patches only `last_checked`, leaving the stored
`last_price` untouched. -/

structure AlertArgs where
  channel : Option String
  product_name : String
  comp_name : String
  old_p : Option ℚ
  new_p : ℚ
  client_p : Option ℚ
  competitor_url : String
  product_url : String
deriving DecidableEq

structure InitAlertArgs where
  channel : Option String
  product_name : String
  reason : String
  client_p : Option ℚ
  competitor_count : ℕ
  product_url : String
deriving DecidableEq

inductive Ev where
  | updClient : ℤ → ℚ → Ev
  | updComp : ℤ → Option ℚ → Ev
  | alertSent : AlertArgs → Ev
  | alertFailed : AlertArgs → Ev
  | initSent : InitAlertArgs → Ev
  | initFailed : InitAlertArgs → Ev
  | warnClient : ℤ → Ev
  | warnComp : ℤ → Ev
  | noChange : ℤ → Ev
  | savedState : SDict → Ev
deriving DecidableEq

structure WEnv where
  products : List ClientProduct
  scraper : String → Option ℚ
  alertRaises : AlertArgs → Bool
  initialAlert : Option (InitAlertArgs → Bool)
  dbCompFail : ℤ → Bool
  dbProdFail : ℤ → Bool
  stateFile : FileRead

/-- `x or ""` for an optional string. -/
def pyOrS (x : Option String) (d : String) : String :=
  match x with
  | some s => if s = "" then d else s
  | none => d

/-- `_initial_alert_reason` (src/worker.py lines 67-77). -/
def initial_alert_reason (product : ClientProduct) (state : SDict) : Option String :=
  let channel := String.mk (pyStrip (pyOrS product.slack_channel_id "").data)
  if channel = "" then none
  else
    let key := String.mk (intStr product.id)
    match (state.find? (fun kv => kv.1 = key)).map (fun kv => kv.2) with
    | none => some "new_product"
    | some prev => if prev ≠ channel then some "channel_changed" else none

/-- The competitor loop (src/worker.py lines 120-161). -/
def runComps (env : WEnv) (product : ClientProduct) (client_price : Option ℚ) :
    List CompetitorTrack → List Ev × Bool
  | [] => ([], true)
  | comp :: rest =>
    match env.scraper comp.url with
    | none =>
      let r := runComps env product client_price rest
      (.warnComp comp.id :: r.1, r.2)
    | some p =>
      if prices_changed comp.last_price (some p) then
        let a : AlertArgs :=
          ⟨product.slack_channel_id, product.product_name, comp.name,
            comp.last_price, p, client_price, comp.url, product.base_url⟩
        let aev := if env.alertRaises a then Ev.alertFailed a else Ev.alertSent a
        if env.dbCompFail comp.id then ([aev], false)
        else
          let r := runComps env product client_price rest
          (aev :: .updComp comp.id (some p) :: r.1, r.2)
      else
        if env.dbCompFail comp.id then ([.noChange comp.id], false)
        else
          let r := runComps env product client_price rest
          (.noChange comp.id :: .updComp comp.id none :: r.1, r.2)

structure ProdOut where
  events : List Ev
  ok : Bool
  state : SDict
  changed : Bool
  seen : List String
deriving DecidableEq

/-- The product loop (src/worker.py lines 86-161), threading the
initial-alert state, the dirty flag and the seen-id set. -/
def runProds (env : WEnv) : List ClientProduct → SDict → Bool → List String → ProdOut
  | [], st, ch, seen => ⟨[], true, st, ch, seen⟩
  | product :: rest, st, ch, seen =>
    let key := String.mk (intStr product.id)
    let seen1 := if key ∈ seen then seen else seen ++ [key]
    let client_price := env.scraper product.base_url
    let cl : List Ev × Bool :=
      match client_price with
      | none => ([.warnClient product.id], true)
      | some q =>
        if env.dbProdFail product.id then ([], false)
        else ([.updClient product.id q], true)
    if cl.2 = false then ⟨cl.1, false, st, ch, seen1⟩
    else
      let ia : List Ev × SDict × Bool :=
        match env.initialAlert with
        | some raises =>
          match initial_alert_reason product st with
          | some r =>
            let args : InitAlertArgs :=
              ⟨product.slack_channel_id, product.product_name, r, client_price,
                product.competitors.length, product.base_url⟩
            if raises args then ([Ev.initFailed args], st, ch)
            else
              ([Ev.initSent args],
                dictSetS st key (String.mk (pyStrip (pyOrS product.slack_channel_id "").data)),
                true)
          | none => ([], st, ch)
        | none => ([], st, ch)
      let cr := runComps env product client_price product.competitors
      if cr.2 then
        let rest' := runProds env rest ia.2.1 ia.2.2 seen1
        ⟨cl.1 ++ ia.1 ++ cr.1 ++ rest'.events, rest'.ok, rest'.state, rest'.changed,
          rest'.seen⟩
      else ⟨cl.1 ++ ia.1 ++ cr.1, false, ia.2.1, ia.2.2, seen1⟩

/-- `check_all_prices` (src/worker.py lines 80-170). -/
def check_all_prices (env : WEnv) : List Ev × Bool :=
  let st0 :=
    match env.initialAlert with
    | some _ => load_initial_alert_state env.stateFile
    | none => []
  let out := runProds env env.products st0 false []
  if out.ok then
    match env.initialAlert with
    | none => (out.events, true)
    | some _ =>
      let stale := out.state.filter (fun kv => !(out.seen.contains kv.1))
      let st2 := out.state.filter (fun kv => out.seen.contains kv.1)
      let changed2 := out.changed || !stale.isEmpty
      if changed2 then (out.events ++ [.savedState st2], true)
      else (out.events, true)
  else (out.events, false)

/-! ### Spec-side definitions for the price-extraction claim

These follow the specification's words (a well-formed `"$1,234.56"`-style
substring: dollar sign, 1–3 leading digits, comma-separated three-digit
thousands groups, optional two-digit cents; its value is the numeral with
the separators removed), to be compared against the source-derived
extractor. -/

/-- Spec-side parse of zero or more `,ddd` thousands groups, returning
their digits and the rest. -/
def specGroupsParse : Str → Option (Str × Str)
  | ',' :: rest =>
    match rest with
    | d1 :: d2 :: d3 :: r2 =>
      if d1.isDigit && d2.isDigit && d3.isDigit then
        (specGroupsParse r2).map (fun pr => (d1 :: d2 :: d3 :: pr.1, pr.2))
      else none
    | _ => none
  | l => some ([], l)

/-- Spec-side parse of the optional two-digit cents, which must end the
token. -/
def specCents : Str → Option (Option (Char × Char))
  | [] => some none
  | ['.', a, b] => if a.isDigit && b.isDigit then some (some (a, b)) else none
  | _ => none

/-- Spec-side decomposition of a well-formed price token. -/
def specTokenParts (m : Str) : Option (Str × Str × Option (Char × Char)) :=
  match m with
  | '$' :: r =>
    let ds := r.takeWhile Char.isDigit
    if 1 ≤ ds.length ∧ ds.length ≤ 3 then
      (specGroupsParse (r.drop ds.length)).bind fun pr =>
      (specCents pr.2).map fun cents => (ds, pr.1, cents)
    else none
  | _ => none

/-- A well-formed `"$1,234.56"`-style substring, per the spec. -/
def specPriceToken (m : Str) : Bool :=
  (specTokenParts m).isSome

/-- The spec-side value of a well-formed price token: the numeral with the
separators removed. -/
def specTokenValue (m : Str) : ℚ :=
  match specTokenParts m with
  | some (ds, gs, cents) =>
    (digitsNat (ds ++ gs) : ℚ) +
      (match cents with
       | some (a, b) => centsVal a b
       | none => 0)
  | none => 0

/-! ### Auxiliary definitions used by the theorem statements -/

/-- Backoff-annotated trace of the first `n` (all-retryable) attempts of
`_request`: `tried 1, slept 1, tried 2, slept 2, tried 3, slept 4, ...`. -/
def backoffTrace : ℕ → List RqEv
  | 0 => []
  | n + 1 => backoffTrace n ++ [.tried (n + 1), .slept (backoff (n + 1))]

/-- The `compare_at_price` field, when present and truthy, is a number (so
that `raw_compare / 100` does not raise). -/
def compareFieldOk (data : JValue) : Prop :=
  ∀ v, jget data "compare_at_price" = some v → jTruthy v = true → ∃ qc, v = JValue.jnum qc

/-- Oracle for the zero-price scenario: the first platform-API candidate of
`example.com/products/w` answers with a product whose raw `price` field is
`0`; every other request fails. -/
def netZero : Net := fun u =>
  if u = "https://example.com/products/w.js".data then
    .resp 200 (some (.jobj [("price", .jnum 0)]))
  else .exn "boom".data

/-- Oracle answering a raw price of 12345 (i.e. $123.45) at the first
platform-API candidate. -/
def netPrice : Net := fun u =>
  if u = "https://example.com/products/w.js".data then
    .resp 200 (some (.jobj [("price", .jnum 12345)]))
  else .exn "boom".data

/-- Oracle on which every request raises. -/
def netFail : Net := fun _ => .exn "x".data

/-- Two tracked competitors and their products for the worker scenarios. -/
def compA : CompetitorTrack := ⟨10, 1, "compA", "urlA", some 120, none⟩

def compB : CompetitorTrack := ⟨11, 1, "compB", "urlB", some 50, none⟩

def prodOne : ClientProduct := ⟨1, "P1", "base1", some "C01", none, none, [compA, compB]⟩

def prodTwo : ClientProduct := ⟨2, "P2", "base2", some "C01", none, none, []⟩

/-- Worker environment: client price 99, compA moved 120→100 with a raising
alert function, compB unchanged at 50, P2's client fetch unavailable. -/
def envRun : WEnv :=
  { products := [prodOne, prodTwo]
    scraper := fun u =>
      if u = "base1" then some 99
      else if u = "urlA" then some 100
      else if u = "urlB" then some 50
      else none
    alertRaises := fun _ => true
    initialAlert := none
    dbCompFail := fun _ => false
    dbProdFail := fun _ => false
    stateFile := .missing }

/-- The alert arguments dispatched for `compA` in `envRun`. -/
def argsA : AlertArgs := ⟨some "C01", "P1", "compA", some 120, 100, some 99, "urlA", "base1"⟩

/-- `envRun` with `update_client_product` failing (after retries) for
product 1. -/
def envDbFail : WEnv := { envRun with dbProdFail := fun i => i = 1 }

/-- One-product, one-competitor environment for the change-detector
witness: stored price absent, fetched price 10, alert succeeds. -/
def envFresh : WEnv :=
  { products := [⟨1, "P1", "base1", some "C01", none, none,
      [⟨10, 1, "compA", "urlA", none, none⟩]⟩]
    scraper := fun u => if u = "urlA" then some 10 else none
    alertRaises := fun _ => false
    initialAlert := none
    dbCompFail := fun _ => false
    dbProdFail := fun _ => false
    stateFile := .missing }

/-- `envFresh` with the competitor fetch unavailable. -/
def envNone : WEnv :=
  { envFresh with scraper := fun _ => none }

/-- Attempt oracle for the retry witness: two retryable timeouts, then a
404. -/
def oracle404 : ℕ → HAttempt := fun i => if i < 3 then .retryExn else .resp 404 true none

/-- Attempt oracle that always answers 503. -/
def oracle503 : ℕ → HAttempt := fun _ => .resp 503 true none

/-! ## Theorems -/

theorem requestFrom_cons (o : ℕ → HAttempt) (k : ℕ) (rest : List ℕ) :
    requestFrom o (k :: rest) =
      if retryableAttempt (o k) then
        ((requestFrom o rest).1, .tried k :: .slept (backoff k) :: (requestFrom o rest).2)
      else (settleAttempt (o k), [.tried k]) := by
  cases h : o k with
  | resp s te j => simp [requestFrom, retryableAttempt, settleAttempt, h]
  | retryExn => simp [requestFrom, retryableAttempt, h]
  | fatalExn => simp [requestFrom, retryableAttempt, settleAttempt, h]

theorem requestFrom_nil (o : ℕ → HAttempt) :
    requestFrom o [] = (.error .exhausted, []) := rfl

/-- C6: every `_request` makes at most 5 attempts — a retryable outcome
(HTTP status in 408/429/500/502/503/504, or a caught timeout-class
exception) on attempt `k` is followed by a `min(2^(k-1), 16)`-second sleep
before the next attempt; the first non-retryable attempt settles the call
immediately (in particular any other error status raises at once), and five
retryable attempts in a row raise to the caller. -/
theorem c6_retry_policy :
    (∀ (o : ℕ → HAttempt) (k : ℕ), 1 ≤ k → k ≤ 5 →
      (∀ i, 1 ≤ i → i < k → retryableAttempt (o i) = true) →
      retryableAttempt (o k) = false →
      request o = (settleAttempt (o k), backoffTrace (k - 1) ++ [.tried k])) ∧
    (∀ o : ℕ → HAttempt, (∀ i, 1 ≤ i → i ≤ 5 → retryableAttempt (o i) = true) →
      request o = (.error .exhausted, backoffTrace 5)) ∧
    (∀ (s : ℤ) (te : Bool) (j : Option JValue),
      retryableAttempt (.resp s te j) = true ↔ s ∈ RETRYABLE_STATUS) ∧
    retryableAttempt .retryExn = true ∧
    (∀ (s : ℤ) (te : Bool) (j : Option JValue), ¬(200 ≤ s ∧ s < 300) →
      settleAttempt (.resp s te j) = .error (.statusError s)) := by
  refine ⟨?_, ?_, ?_, rfl, ?_⟩
  · intro o k h1 h2 hpre hk
    interval_cases k
    · simp [request, requestFrom_cons, hk, backoffTrace]
    · have r1 := hpre 1 (by norm_num) (by norm_num)
      simp [request, requestFrom_cons, r1, hk, backoffTrace, backoff]
    · have r1 := hpre 1 (by norm_num) (by norm_num)
      have r2 := hpre 2 (by norm_num) (by norm_num)
      simp [request, requestFrom_cons, r1, r2, hk, backoffTrace, backoff]
    · have r1 := hpre 1 (by norm_num) (by norm_num)
      have r2 := hpre 2 (by norm_num) (by norm_num)
      have r3 := hpre 3 (by norm_num) (by norm_num)
      simp [request, requestFrom_cons, r1, r2, r3, hk, backoffTrace, backoff]
    · have r1 := hpre 1 (by norm_num) (by norm_num)
      have r2 := hpre 2 (by norm_num) (by norm_num)
      have r3 := hpre 3 (by norm_num) (by norm_num)
      have r4 := hpre 4 (by norm_num) (by norm_num)
      simp [request, requestFrom_cons, r1, r2, r3, r4, hk, backoffTrace, backoff]
  · intro o hpre
    have r1 := hpre 1 (by norm_num) (by norm_num)
    have r2 := hpre 2 (by norm_num) (by norm_num)
    have r3 := hpre 3 (by norm_num) (by norm_num)
    have r4 := hpre 4 (by norm_num) (by norm_num)
    have r5 := hpre 5 (by norm_num) (by norm_num)
    simp [request, requestFrom_cons, requestFrom_nil, r1, r2, r3, r4, r5,
      backoffTrace, backoff]
  · intro s te j
    simp [retryableAttempt, RETRYABLE_STATUS, List.contains, List.elem_iff]
  · intro s te j h
    simp [settleAttempt, settleResp, h]

/-- Witness for C6: two timeouts then a 404 settle after three attempts
with 1s and 2s sleeps and raise the status error; five straight 503s sleep
1/2/4/8/16 and raise after the fifth attempt. -/
theorem c6_retry_policy_witness :
    request oracle404 =
      (.error (.statusError 404), [.tried 1, .slept 1, .tried 2, .slept 2, .tried 3]) ∧
    request oracle503 = (.error .exhausted, backoffTrace 5) := by
  constructor
  · have h := c6_retry_policy.1 oracle404 3 (by norm_num) (by norm_num)
      (fun i h1 h2 => by interval_cases i <;> rfl) (by decide)
    simpa [backoffTrace, backoff] using h
  · exact c6_retry_policy.2.1 oracle503 (fun i h1 h2 => by interval_cases i <;> rfl)

/-- C2: the change detector fires exactly when a non-`None` new price
differs from the stored one — `(old=None, new=p)` is a change,
`(old=p, new=p)` is not, and a `None` new price is never a change; in the
run loop a `None` competitor fetch is logged as a warning and produces
neither an alert nor any `update_competitor` call, leaving the stored
`last_price` untouched, while `(old=None, new=p)` dispatches the alert and
persists `p`. -/
theorem c2_change_detector :
    (∀ old : Option ℚ, prices_changed old none = false) ∧
    (∀ p : ℚ, prices_changed none (some p) = true) ∧
    (∀ p : ℚ, prices_changed (some p) (some p) = false) ∧
    (∀ (env : WEnv) (product : ClientProduct) (comp : CompetitorTrack),
      env.products = [product] → product.competitors = [comp] →
      env.initialAlert = none → env.scraper product.base_url = none →
      env.scraper comp.url = none →
      check_all_prices env = ([.warnClient product.id, .warnComp comp.id], true)) ∧
    (∀ (env : WEnv) (product : ClientProduct) (comp : CompetitorTrack) (p : ℚ),
      env.products = [product] → product.competitors = [comp] →
      env.initialAlert = none → env.scraper product.base_url = none →
      env.scraper comp.url = some p → comp.last_price = none →
      env.alertRaises ⟨product.slack_channel_id, product.product_name, comp.name,
        none, p, none, comp.url, product.base_url⟩ = false →
      env.dbCompFail comp.id = false →
      check_all_prices env =
        ([.warnClient product.id,
          .alertSent ⟨product.slack_channel_id, product.product_name, comp.name,
            none, p, none, comp.url, product.base_url⟩,
          .updComp comp.id (some p)], true)) := by
  refine ⟨fun old => rfl, fun p => rfl, fun p => by simp [prices_changed], ?_, ?_⟩
  · intro env product comp h1 h2 h3 h4 h5
    simp [check_all_prices, runProds, runComps, h1, h2, h3, h4, h5]
  · intro env product comp p h1 h2 h3 h4 h5 h6 h7 h8
    simp [check_all_prices, runProds, runComps, h1, h2, h3, h4, h5, h6, h7, h8,
      prices_changed]

/-- Witness for C2: a concrete unavailable-fetch run and a concrete
first-observation run. -/
theorem c2_change_detector_witness :
    check_all_prices envNone = ([.warnClient 1, .warnComp 10], true) ∧
    check_all_prices envFresh =
      ([.warnClient 1,
        .alertSent ⟨some "C01", "P1", "compA", none, 10, none, "urlA", "base1"⟩,
        .updComp 10 (some 10)], true) := by
  constructor
  · exact c2_change_detector.2.2.2.1 envNone
      ⟨1, "P1", "base1", some "C01", none, none, [⟨10, 1, "compA", "urlA", none, none⟩]⟩
      ⟨10, 1, "compA", "urlA", none, none⟩ rfl rfl rfl rfl rfl
  · exact c2_change_detector.2.2.2.2 envFresh
      ⟨1, "P1", "base1", some "C01", none, none, [⟨10, 1, "compA", "urlA", none, none⟩]⟩
      ⟨10, 1, "compA", "urlA", none, none⟩ 10 rfl rfl rfl (by decide) (by decide) rfl
      (by decide) (by decide)

/-- C5: when a competitor's price changed and the alert function raises,
the exception is caught and logged (`alertFailed`), the new price is still
persisted for that competitor, persistence happens after the alert
dispatch, and the remaining competitors and products are processed. -/
theorem c5_alert_failure_isolated :
    ∀ (env : WEnv) (P1 P2 : ClientProduct) (c1 c2 : CompetitorTrack) (bp p1 p2 : ℚ),
      env.products = [P1, P2] → P1.competitors = [c1, c2] → P2.competitors = [] →
      env.initialAlert = none →
      env.scraper P1.base_url = some bp → env.dbProdFail P1.id = false →
      env.scraper c1.url = some p1 →
      prices_changed c1.last_price (some p1) = true →
      env.alertRaises ⟨P1.slack_channel_id, P1.product_name, c1.name, c1.last_price,
        p1, some bp, c1.url, P1.base_url⟩ = true →
      env.dbCompFail c1.id = false →
      env.scraper c2.url = some p2 →
      prices_changed c2.last_price (some p2) = false →
      env.dbCompFail c2.id = false →
      env.scraper P2.base_url = none →
      check_all_prices env =
        ([.updClient P1.id bp,
          .alertFailed ⟨P1.slack_channel_id, P1.product_name, c1.name, c1.last_price,
            p1, some bp, c1.url, P1.base_url⟩,
          .updComp c1.id (some p1), .noChange c2.id, .updComp c2.id none,
          .warnClient P2.id], true) := by
  intro env P1 P2 c1 c2 bp p1 p2 h1 h2 h3 h4 h5 h6 h7 h8 h9 h10 h11 h12 h13 h14
  simp [check_all_prices, runProds, runComps, h1, h2, h3, h4, h5, h6, h7, h8, h9,
    h10, h11, h12, h13, h14]

/-- Witness for C5: the concrete `envRun` scenario (alert raises for
`compA`; its new price is still persisted, and `compB` and product 2 are
still processed afterwards). -/
theorem c5_alert_failure_isolated_witness :
    check_all_prices envRun =
      ([.updClient 1 99, .alertFailed argsA, .updComp 10 (some 100), .noChange 11,
        .updComp 11 none, .warnClient 2], true) := by
  have h := c5_alert_failure_isolated envRun prodOne prodTwo compA compB 99 100 50
    rfl rfl rfl rfl (by decide) (by decide) (by decide) (by decide) (by decide)
    (by decide) (by decide) (by decide) (by decide) (by decide)
  exact h

/-- C4 is contradicted by the code: `check_all_prices` has no handler
around `update_client_product` / `update_competitor`, so a persistence
call that exhausts its retries and re-raises terminates the whole run.  In
`envDbFail`, product 1's `update_client_product` raises: the run ends with
no events at all and does not reach product 2, while the identical run
without the failure (`envRun`) processes product 2 (`warnClient 2`). -/
theorem c4_counterexample :
    check_all_prices envDbFail = ([], false) ∧
    check_all_prices envRun =
      ([.updClient 1 99, .alertFailed argsA, .updComp 10 (some 100), .noChange 11,
        .updComp 11 none, .warnClient 2], true) := by
  constructor <;> decide

/-- C4 (amended): an exhausted-retry exception from a persistence call is
not caught by the Run Coordinator — it propagates out of
`check_all_prices` and terminates the whole run before any later entity is
processed; only alert-dispatch failures are caught and logged. -/
theorem c4_persistence_failure_terminates :
    ∀ (env : WEnv) (p : ClientProduct) (rest : List ClientProduct) (q : ℚ),
      env.products = p :: rest → env.scraper p.base_url = some q →
      env.dbProdFail p.id = true →
      check_all_prices env = ([], false) := by
  intro env p rest q h1 h2 h3
  simp [check_all_prices, runProds, h1, h2, h3]

/-- Witness for the amended C4 at the concrete failing environment. -/
theorem c4_persistence_failure_terminates_witness :
    check_all_prices envDbFail = ([], false) := by
  exact c4_persistence_failure_terminates envDbFail prodOne [prodTwo] 99 rfl
    (by decide) (by decide)

/-- C7: stock classification depends only on the lowercased text
(case-insensitive); the categories are checked in the fixed priority
OutOfStock > Backordered > LowStock > InStock and the first whose phrase
set matches anywhere wins; "Sold Out", "out of stock" and "Unavailable"
all classify as the Out-of-Stock category; a text containing both a
"low stock" and an "in stock" phrase classifies as Low Stock; a text
matching no category yields the no-match (`Unknown`) result, `none`. -/
theorem c7_stock_classification :
    (∀ l1 l2 : Str, pyLower l1 = pyLower l2 →
      extract_stock_status l1 = extract_stock_status l2) ∧
    (extract_stock_status "Sold Out".data = some "Out of Stock".data ∧
      extract_stock_status "out of stock".data = some "Out of Stock".data ∧
      extract_stock_status "Unavailable".data = some "Out of Stock".data) ∧
    (∀ l : Str, l ≠ [] → scanB oosAt false (pyLower l) = true →
      extract_stock_status l = some "Out of Stock".data) ∧
    (∀ l : Str, l ≠ [] → scanB oosAt false (pyLower l) = false →
      scanB backAt false (pyLower l) = true →
      extract_stock_status l = some "Backordered".data) ∧
    (∀ l : Str, l ≠ [] → scanB oosAt false (pyLower l) = false →
      scanB backAt false (pyLower l) = false →
      scanB lowStockAt false (pyLower l) = true →
      extract_stock_status l = some "Low Stock".data) ∧
    (∀ l : Str, l ≠ [] → scanB oosAt false (pyLower l) = false →
      scanB backAt false (pyLower l) = false →
      scanB lowStockAt false (pyLower l) = false →
      scanB inStockAt false (pyLower l) = true →
      extract_stock_status l = some "In Stock".data) ∧
    (∀ l : Str, scanB oosAt false (pyLower l) = false →
      scanB backAt false (pyLower l) = false →
      scanB lowStockAt false (pyLower l) = false →
      scanB inStockAt false (pyLower l) = false →
      extract_stock_status l = none) ∧
    extract_stock_status "Low stock - more in stock soon".data = some "Low Stock".data := by
  refine ⟨?_, ⟨by decide, by decide, by decide⟩, ?_, ?_, ?_, ?_, ?_, by decide⟩
  · intro l1 l2 h
    by_cases h1 : l1 = []
    · have e : pyLower l2 = [] := by rw [← h, h1]; rfl
      have h2 : l2 = [] := by simpa [pyLower] using e
      simp [h1, h2]
    · have h2 : l2 ≠ [] := by
        intro hc
        have e : pyLower l1 = [] := by rw [h, hc]; rfl
        exact h1 (by simpa [pyLower] using e)
      simp only [extract_stock_status, if_neg h1, if_neg h2, h]
  · intro l h0 h1
    simp [extract_stock_status, h0, h1]
  · intro l h0 h1 h2
    simp [extract_stock_status, h0, h1, h2]
  · intro l h0 h1 h2 h3
    simp [extract_stock_status, h0, h1, h2, h3]
  · intro l h0 h1 h2 h3 h4
    simp [extract_stock_status, h0, h1, h2, h3, h4]
  · intro l h1 h2 h3 h4
    by_cases h0 : l = []
    · simp [extract_stock_status, h0]
    · simp [extract_stock_status, h0, h1, h2, h3, h4]

/-- Witness for C7: the quantified conjuncts applied at concrete texts. -/
theorem c7_stock_classification_witness :
    extract_stock_status "CAPS Sold Out".data = extract_stock_status "caps sold out".data ∧
    extract_stock_status "low stock, in stock soon".data = some "Low Stock".data ∧
    extract_stock_status "plain text".data = none := by
  refine ⟨c7_stock_classification.1 _ _ (by decide), ?_, ?_⟩
  · exact c7_stock_classification.2.2.2.2.1 "low stock, in stock soon".data
      (by decide) (by decide) (by decide) (by decide)
  · exact c7_stock_classification.2.2.2.2.2.2.1 "plain text".data
      (by decide) (by decide) (by decide) (by decide)

theorem stringMk_data (s : String) : String.mk s.data = s := rfl

theorem data_ne_nil (s : String) (h : s ≠ "") : s.data ≠ [] := by
  intro hc
  apply h
  cases s
  simp_all

theorem dictSetS_append (acc : SDict) (k v : String)
    (h : ∀ kv ∈ acc, kv.1 ≠ k) : dictSetS acc k v = acc ++ [(k, v)] := by
  have hany : acc.any (fun kv => kv.1 = k) = false := by
    simp only [List.any_eq_false, decide_eq_true_eq]
    exact fun x hx => h x hx
  simp [dictSetS, hany]

theorem foldl_normStep_trimmed :
    ∀ (m : SDict) (acc : SDict),
      (∀ kv ∈ m, pyStrip kv.1.data = kv.1.data ∧ kv.1 ≠ "" ∧
        pyStrip kv.2.data = kv.2.data ∧ kv.2 ≠ "") →
      (m.map Prod.fst).Nodup →
      (∀ kv ∈ m, ∀ kv2 ∈ acc, kv2.1 ≠ kv.1) →
      List.foldl normStep acc (m.map fun kv => (kv.1, JValue.jstr kv.2)) = acc ++ m := by
  intro m
  induction m with
  | nil => intro acc _ _ _; simp
  | cons a rest ih =>
    intro acc hcond hnodup hdisj
    obtain ⟨hk, hkne, hv, hvne⟩ := hcond a (by simp)
    rw [List.map_cons] at hnodup
    have hnd := List.nodup_cons.mp hnodup
    have step : normStep acc (a.1, JValue.jstr a.2) = acc ++ [a] := by
      simp only [normStep]
      rw [hk, hv, stringMk_data, stringMk_data]
      rw [if_pos ⟨hkne, data_ne_nil a.2 hvne⟩]
      rw [dictSetS_append acc a.1 a.2 (hdisj a (by simp))]
    rw [List.map_cons, List.foldl_cons, step]
    rw [ih (acc ++ [a]) (fun x hx => hcond x (by simp [hx])) hnd.2 ?_]
    · simp
    · intro x hx kv2 hkv2
      rcases List.mem_append.mp hkv2 with h2 | h2
      · exact hdisj x (by simp [hx]) kv2 h2
      · have he2 : kv2 = a := by simpa using h2
        subst he2
        intro he
        exact hnd.1 (by rw [he]; exact List.mem_map_of_mem Prod.fst hx)

/-- C9 is contradicted by the code on untrimmed route strings: saving the
mapping `p ↦ "r "` (a non-empty route string) and reloading yields
`p ↦ "r"` — the loader strips values — so the reloaded mapping is not
identical to the saved one. -/
theorem c9_counterexample :
    load_initial_alert_state (.parsed (save_initial_alert_state [("p", "r ")])) =
      [("p", "r")] ∧
    ([("p", "r")] : SDict) ≠ [("p", "r ")] := by
  constructor <;> decide

/-- C9 (amended): the onboarding state round-trips through the durable
file for every mapping whose entity-id keys and route values equal their
whitespace-trimmed forms and are non-empty (with distinct keys, as in a
Python dict); and every missing, unreadable, or malformed state file
(non-JSON content, non-dict payload, or a non-dict value under the
recognized key) loads as the empty mapping without raising. -/
theorem c9_state_roundtrip :
    (∀ m : SDict,
      (∀ kv ∈ m, pyStrip kv.1.data = kv.1.data ∧ kv.1 ≠ "" ∧
        pyStrip kv.2.data = kv.2.data ∧ kv.2 ≠ "") →
      (m.map Prod.fst).Nodup →
      load_initial_alert_state (.parsed (save_initial_alert_state m)) = m) ∧
    load_initial_alert_state .missing = [] ∧
    load_initial_alert_state .ioError = [] ∧
    load_initial_alert_state .badJson = [] ∧
    (∀ v : JValue, (∀ kvs, v ≠ .jobj kvs) → load_initial_alert_state (.parsed v) = []) ∧
    (∀ (kvs : List (String × JValue)) (v : JValue),
      (kvs.find? (fun kv => kv.1 = STATE_KEY)).map (fun kv => kv.2) = some v →
      (∀ rows, v ≠ .jobj rows) →
      load_initial_alert_state (.parsed (.jobj kvs)) = []) := by
  refine ⟨?_, rfl, rfl, rfl, ?_, ?_⟩
  · intro m hcond hnodup
    have h : load_initial_alert_state (.parsed (save_initial_alert_state m)) =
        normalizeRows (m.map fun kv => (kv.1, JValue.jstr kv.2)) := by
      simp [load_initial_alert_state, save_initial_alert_state, STATE_KEY, List.find?]
    rw [h, normalizeRows, foldl_normStep_trimmed m [] hcond hnodup (by simp)]
    simp
  · intro v hv
    cases v <;> first | rfl | exact absurd rfl (hv _)
  · intro kvs v hfind hv
    simp only [load_initial_alert_state]
    rw [hfind]
    cases v <;> first | rfl | exact absurd rfl (hv _)

/-- Witness for the amended C9: a concrete trimmed mapping round-trips and
a concrete corrupt payload loads empty. -/
theorem c9_state_roundtrip_witness :
    load_initial_alert_state (.parsed (save_initial_alert_state [("1", "C01")])) =
      [("1", "C01")] ∧
    load_initial_alert_state (.parsed (.jstr "oops")) = [] := by
  constructor
  · exact c9_state_roundtrip.1 [("1", "C01")] (by decide) (by decide)
  · exact c9_state_roundtrip.2.2.2.2.1 (.jstr "oops") (fun kvs h => by cases h)

theorem runCands_first_success (net : Net) (v hd : Str) (raw : Bool) :
    ∀ (cs1 : List Cand) (c : Cand) (cs2 : List Cand) (le : Option Str)
      (r : ShopifyResult) (m : Str),
      (∀ c' ∈ cs1, ∃ msg, tryCand net hd raw c' = (.ok none, msg)) →
      tryCand net hd raw c = (.ok (some r), m) →
      runCands net v hd raw (cs1 ++ c :: cs2) le =
        (.ok (.success r), (cs1 ++ [c]).map candCall) := by
  intro cs1
  induction cs1 with
  | nil =>
    intro c cs2 le r m hpre hc
    simp [runCands, hc]
  | cons c' cs1' ih =>
    intro c cs2 le r m hpre hc
    obtain ⟨msg, hmsg⟩ := hpre c' (by simp)
    have ih' := ih c cs2 (some msg) r m (fun x hx => hpre x (by simp [hx])) hc
    simp [runCands, hmsg, ih']

theorem getPrice_of_success (net : Net) (url : Option Str) (full : Str)
    (r : ShopifyResult) (tr : List Call) :
    normalize_url url = some full →
    (urlHostPath full).1 ≠ [] →
    handleOf (urlHostPath full).2 ≠ [] →
    fetch_shopify_js net (urlHostPath full).1 (handleOf (urlHostPath full).2) false =
      (.ok (.success r), tr) →
    get_price net url = ⟨.ok (some r.current_price), tr, false⟩ := by
  intro h1 h2 h3 h4
  simp [get_price, h1, h2, h3, h4]

theorem tryCand_js_price (net : Net) (hd : Str) (raw : Bool) (h0 p0 : Str)
    (data : JValue) (q : ℚ) :
    net ("https://".data ++ h0 ++ p0) = .resp 200 (some data) →
    jTruthy data = true →
    jget data "price" = some (.jnum q) →
    compareFieldOk data →
    ∃ r, tryCand net hd raw (h0, p0, false) = (.ok (some r), []) ∧
      r.current_price = q / 100 ∧ r.vendor = h0 ∧ r.source = "shopify_js".data := by
  intro hnet htr hprice hcomp
  have hobj : ∃ kvs, data = .jobj kvs := by
    cases data <;> simp [jget] at hprice ⊢
  obtain ⟨kvs, rfl⟩ := hobj
  simp at hnet
  cases hc : jget (.jobj kvs) "compare_at_price" with
  | none =>
    refine ⟨⟨h0, (jget (.jobj kvs) "title").getD .jnull, q / 100, none, some false,
      "shopify_js".data, if raw then some (.jobj kvs) else none⟩, ?_, rfl, rfl, rfl⟩
    simp [tryCand, fetch_json, hnet, htr, hprice, hc, jdiv100]
  | some cv =>
    by_cases ht : jTruthy cv = true
    · obtain ⟨qc, rfl⟩ := hcomp cv hc ht
      refine ⟨⟨h0, (jget (.jobj kvs) "title").getD .jnull, q / 100, some (qc / 100),
        some (decide (q / 100 < qc / 100)), "shopify_js".data,
        if raw then some (.jobj kvs) else none⟩, ?_, rfl, rfl, rfl⟩
      simp [tryCand, fetch_json, hnet, htr, hprice, hc, ht, jdiv100]
    · refine ⟨⟨h0, (jget (.jobj kvs) "title").getD .jnull, q / 100, none, some false,
        "shopify_js".data, if raw then some (.jobj kvs) else none⟩, ?_, rfl, rfl, rfl⟩
      simp [tryCand, fetch_json, hnet, htr, hprice, hc, ht, jdiv100]

/-- C1 is contradicted by the code: a platform response whose raw `price`
field is `0` makes `fetch_shopify_js` return a `"status": "success"` dict
with `current_price = 0.0` after a single fetch (the cascade stops), and
`get_price` returns `0` as a successful price. -/
theorem c1_counterexample :
    (fetch_shopify_js netZero "example.com".data "w".data false).1 =
      .ok (.success ⟨"example.com".data, .jnull, 0, none, some false,
        "shopify_js".data, none⟩) ∧
    get_price netZero (some "https://example.com/products/w".data) =
      ⟨.ok (some 0), [⟨"https://example.com/products/w.js".data, false⟩], false⟩ := by
  constructor
  · have h1 : (fetch_shopify_js netZero "example.com".data "w".data false).1 =
        .ok (.success ⟨"example.com".data, .jnull, (0 : ℚ) / 100, none, some false,
          "shopify_js".data, none⟩) := rfl
    rw [h1]
    simp [show (0 : ℚ) / 100 = 0 from by norm_num]
  · have h1 : get_price netZero (some "https://example.com/products/w".data) =
        ⟨.ok (some ((0 : ℚ) / 100)),
          [⟨"https://example.com/products/w.js".data, false⟩], false⟩ := rfl
    rw [h1]
    simp [show (0 : ℚ) / 100 = 0 from by norm_num]

/-- C1 (amended): a price field of any value — including 0 or negative —
is treated as a valid price: when the first cascade candidate answers with
a JSON object carrying a numeric `price` field `q`, `fetch_shopify_js`
returns a success with price `q / 100` after that single fetch, and
`get_price` on the zero-price oracle returns `0` as a successful price.
Only a missing `price` field or a failed fetch advances the cascade. -/
theorem c1_zero_price_is_success :
    (∀ (net : Net) (v hd : Str) (q : ℚ) (data : JValue) (h0 p0 : Str) (cs2 : List Cand),
      flatCands v hd = (h0, p0, false) :: cs2 →
      net ("https://".data ++ h0 ++ p0) = .resp 200 (some data) →
      jTruthy data = true →
      jget data "price" = some (.jnum q) →
      compareFieldOk data →
      ∃ r, fetch_shopify_js net v hd false =
          (.ok (.success r), [candCall (h0, p0, false)]) ∧
        r.current_price = q / 100) ∧
    (get_price netZero (some "https://example.com/products/w".data)).res = .ok (some 0) := by
  constructor
  · intro net v hd q data h0 p0 cs2 hflat hnet htr hprice hcomp
    obtain ⟨r, hr, hp, _, _⟩ :=
      tryCand_js_price net hd false h0 p0 data q hnet htr hprice hcomp
    refine ⟨r, ?_, hp⟩
    have h := runCands_first_success net v hd false [] (h0, p0, false) cs2 none r []
      (by simp) hr
    simpa [fetch_shopify_js, hflat] using h
  · have h1 : get_price netZero (some "https://example.com/products/w".data) =
        ⟨.ok (some ((0 : ℚ) / 100)),
          [⟨"https://example.com/products/w.js".data, false⟩], false⟩ := rfl
    rw [h1]
    simp [show (0 : ℚ) / 100 = 0 from by norm_num]

/-- Witness for the amended C1 at the concrete zero-price oracle. -/
theorem c1_zero_price_is_success_witness :
    ∃ r, fetch_shopify_js netZero "example.com".data "w".data false =
        (.ok (.success r), [candCall ("example.com".data, "/products/w.js".data, false)]) ∧
      r.current_price = (0 : ℚ) / 100 :=
  c1_zero_price_is_success.1 netZero "example.com".data "w".data 0
    (.jobj [("price", .jnum 0)]) "example.com".data "/products/w.js".data _
    rfl rfl rfl rfl (fun _ hv => nomatch hv)

/-- C3: once the platform-API step (`fetch_shopify_js`) succeeds,
`get_price` returns its price and the fallback text-extraction-proxy fetch
is never invoked (`proxyCalled = false`); and within the API step, the
first host×path candidate that yields a price ends the search — the fetch
trace is exactly the failing prefix plus that one candidate, and the
remaining candidates are never fetched. -/
theorem c3_cascade_short_circuit :
    (∀ (net : Net) (url : Option Str) (full : Str) (r : ShopifyResult) (tr : List Call),
      normalize_url url = some full →
      (urlHostPath full).1 ≠ [] → handleOf (urlHostPath full).2 ≠ [] →
      fetch_shopify_js net (urlHostPath full).1 (handleOf (urlHostPath full).2) false =
        (.ok (.success r), tr) →
      get_price net url = ⟨.ok (some r.current_price), tr, false⟩) ∧
    (∀ (net : Net) (v hd : Str) (raw : Bool) (cs1 : List Cand) (c : Cand)
      (cs2 : List Cand) (r : ShopifyResult) (m : Str),
      flatCands v hd = cs1 ++ c :: cs2 →
      (∀ c' ∈ cs1, ∃ msg, tryCand net hd raw c' = (.ok none, msg)) →
      tryCand net hd raw c = (.ok (some r), m) →
      fetch_shopify_js net v hd raw = (.ok (.success r), (cs1 ++ [c]).map candCall)) := by
  constructor
  · exact getPrice_of_success
  · intro net v hd raw cs1 c cs2 r m hflat hpre hc
    have h := runCands_first_success net v hd raw cs1 c cs2 none r m hpre hc
    simpa [fetch_shopify_js, hflat] using h

/-- Witness for C3 at the concrete $123.45 oracle: the proxy step is not
invoked and the trace is the single successful candidate. -/
theorem c3_cascade_short_circuit_witness :
    get_price netPrice (some "https://example.com/products/w".data) =
      ⟨.ok (some ((12345 : ℚ) / 100)),
        [⟨"https://example.com/products/w.js".data, false⟩], false⟩ ∧
    fetch_shopify_js netPrice "example.com".data "w".data false =
      (.ok (.success ⟨"example.com".data, .jnull, (12345 : ℚ) / 100, none, some false,
        "shopify_js".data, none⟩),
        ([] ++ [(("example.com".data, "/products/w.js".data, false) : Cand)]).map candCall) := by
  constructor
  · exact c3_cascade_short_circuit.1 netPrice (some "https://example.com/products/w".data)
      "https://example.com/products/w".data
      ⟨"example.com".data, .jnull, (12345 : ℚ) / 100, none, some false,
        "shopify_js".data, none⟩
      [⟨"https://example.com/products/w.js".data, false⟩]
      rfl (by decide) (by decide) rfl
  · exact c3_cascade_short_circuit.2 netPrice "example.com".data "w".data false []
      ("example.com".data, "/products/w.js".data, false) _
      ⟨"example.com".data, .jnull, (12345 : ℚ) / 100, none, some false,
        "shopify_js".data, none⟩ []
      rfl (by simp) rfl

theorem find?_setJ_self (d : SnapDict) (k : String) (v : JValue) :
    List.find? (fun kv => kv.1 = k) (d.map (fun kv => if kv.1 = k then (k, v) else kv)) =
      if d.any (fun kv => kv.1 = k) = true then some (k, v) else none := by
  induction d with
  | nil => simp
  | cons a t ih =>
    by_cases ha : a.1 = k
    · simp [List.find?, ha]
    · simp only [List.map_cons, List.find?, if_neg ha]
      rw [show (decide (a.1 = k)) = false by simp [ha]]
      rw [ih]
      have he : (decide (a.1 = k) || t.any fun kv => decide (kv.1 = k)) =
          (t.any fun kv => decide (kv.1 = k)) := by simp [ha]
      simp only [List.any_cons, he]

theorem getJD_dictSetJ_self (d : SnapDict) (k : String) (v : JValue) :
    getJD (dictSetJ d k v) k = v := by
  by_cases h : d.any (fun kv => kv.1 = k) = true
  · unfold dictSetJ getJD
    rw [if_pos h, find?_setJ_self, if_pos h]
    rfl
  · unfold dictSetJ getJD
    rw [if_neg h, List.find?_append]
    have hn : List.find? (fun kv => decide (kv.1 = k)) d = none := by
      simp only [List.find?_eq_none]
      intro x hx
      simp only [decide_eq_true_eq]
      intro hc
      exact h (List.any_eq_true.mpr ⟨x, hx, by simp [hc]⟩)
    rw [hn]
    simp

theorem find?_setJ_ne (d : SnapDict) (k k' : String) (v : JValue) (h : k ≠ k') :
    List.find? (fun kv => kv.1 = k) (d.map (fun kv => if kv.1 = k' then (k', v) else kv)) =
      List.find? (fun kv => kv.1 = k) d := by
  have hk'k : ¬ (k' = k) := fun hc => h hc.symm
  induction d with
  | nil => simp
  | cons a t ih =>
    by_cases ha : a.1 = k'
    · have hak : ¬ a.1 = k := by rw [ha]; exact hk'k
      simp only [List.map_cons, if_pos ha, List.find?]
      rw [show (decide (k' = k)) = false by simp [hk'k]]
      rw [show (decide (a.1 = k)) = false by simp [hak]]
      exact ih
    · simp only [List.map_cons, if_neg ha, List.find?]
      by_cases hak : a.1 = k
      · rw [show (decide (a.1 = k)) = true by simp [hak]]
      · rw [show (decide (a.1 = k)) = false by simp [hak]]
        exact ih

theorem getJD_dictSetJ_ne (d : SnapDict) (k k' : String) (v : JValue) (h : k ≠ k') :
    getJD (dictSetJ d k' v) k = getJD d k := by
  have hk'k : ¬ (k' = k) := fun hc => h hc.symm
  by_cases ha : d.any (fun kv => kv.1 = k') = true
  · unfold dictSetJ getJD
    rw [if_pos ha, find?_setJ_ne d k k' v h]
  · unfold dictSetJ getJD
    rw [if_neg ha, List.find?_append]
    have hn : List.find? (fun kv => decide (kv.1 = k)) [(k', v)] = none := by
      simp [hk'k]
    rw [hn]
    cases List.find? (fun kv => decide (kv.1 = k)) d <;> simp

theorem needs_placeholder_manual : needs_placeholder (.jstr PLACEHOLDER_MANUAL) = false := by
  decide

theorem needs_placeholder_pending : needs_placeholder (.jstr PLACEHOLDER_PENDING) = false := by
  decide

theorem placeholders_stock (d : SnapDict) :
    needs_placeholder (getJD (applyPlaceholders d) "stock_status") = false := by
  have ne1 : ("stock_status" : String) ≠ "shipping_estimate" := by decide
  have ne2 : ("stock_status" : String) ≠ "discount" := by decide
  simp only [applyPlaceholders]
  split_ifs with h1 h2 h3 h4 h5 h6 h7 <;>
    simp_all [getJD_dictSetJ_self, getJD_dictSetJ_ne _ _ _ _ ne1,
      getJD_dictSetJ_ne _ _ _ _ ne2, needs_placeholder_manual, needs_placeholder_pending]

theorem placeholders_discount (d : SnapDict) :
    needs_placeholder (getJD (applyPlaceholders d) "discount") = false := by
  simp only [applyPlaceholders]
  split_ifs with h1 h2 h3 h4 h5 h6 h7 <;>
    simp_all [getJD_dictSetJ_self, needs_placeholder_manual, needs_placeholder_pending]

/-- C10: for every URL that is `None`, empty, or whitespace-only,
`get_price` returns `None` (making no fetch at all) and
`get_product_snapshot` returns the empty dict, which carries no fields at
all; by contrast every successfully built snapshot for a non-empty URL is
either impossible (`d = []` only in the empty-URL case) or carries
`stock_status` and `discount` values that are past the placeholder policy
(never `None`/blank — absent values have been replaced by the
"Manual Audit Required" / "Data Pending" sentinels). -/
theorem c10_empty_url :
    (∀ (net : Net) (url : Option Str), pyStrip (url.getD []) = [] →
      get_price net url = ⟨.ok none, [], false⟩ ∧
      get_product_snapshot net url = .ok []) ∧
    (∀ (net : Net) (url : Option Str) (d : SnapDict),
      get_product_snapshot net url = .ok d →
      d = [] ∨ (needs_placeholder (getJD d "stock_status") = false ∧
        needs_placeholder (getJD d "discount") = false)) := by
  constructor
  · intro net url h
    have hn : normalize_url url = none := by simp [normalize_url, h]
    exact ⟨by simp [get_price, hn], by simp [get_product_snapshot, hn]⟩
  · intro net url d h
    rcases hurl : normalize_url url with _ | full
    · left
      simp only [get_product_snapshot, hurl] at h
      exact (Except.ok.injEq _ _ ▸ h).symm
    · simp only [get_product_snapshot, hurl] at h
      iterate 14 all_goals (try split at h)
      all_goals first
        | exact Except.noConfusion h
        | (right
           obtain rfl : _ = d := (Except.ok.injEq _ _ ▸ h)
           exact ⟨placeholders_stock _, placeholders_discount _⟩)

/-- Witness for C10: a `None` URL, a whitespace-only URL, and a concrete
non-empty-URL snapshot on the all-failing oracle. -/
theorem c10_empty_url_witness :
    (get_price netFail none = ⟨.ok none, [], false⟩ ∧
      get_product_snapshot netFail none = .ok []) ∧
    (get_price netFail (some "   ".data) = ⟨.ok none, [], false⟩ ∧
      get_product_snapshot netFail (some "   ".data) = .ok []) ∧
    (([("price", JValue.jnull), ("stock_status", JValue.jstr "Manual Audit Required"),
        ("shipping_estimate", JValue.jstr "Data Pending"), ("shipping_days", JValue.jnull),
        ("shipping_cost", JValue.jnull), ("discount", JValue.jstr "Data Pending"),
        ("review_count", JValue.jnull), ("warranty_years", JValue.jnull)] : SnapDict) = [] ∨
      (needs_placeholder (getJD [("price", JValue.jnull),
        ("stock_status", JValue.jstr "Manual Audit Required"),
        ("shipping_estimate", JValue.jstr "Data Pending"), ("shipping_days", JValue.jnull),
        ("shipping_cost", JValue.jnull), ("discount", JValue.jstr "Data Pending"),
        ("review_count", JValue.jnull), ("warranty_years", JValue.jnull)] "stock_status") = false ∧
        needs_placeholder (getJD [("price", JValue.jnull),
          ("stock_status", JValue.jstr "Manual Audit Required"),
          ("shipping_estimate", JValue.jstr "Data Pending"), ("shipping_days", JValue.jnull),
          ("shipping_cost", JValue.jnull), ("discount", JValue.jstr "Data Pending"),
          ("review_count", JValue.jnull), ("warranty_years", JValue.jnull)] "discount") = false)) := by
  refine ⟨c10_empty_url.1 netFail none (by decide),
    c10_empty_url.1 netFail (some "   ".data) (by decide), ?_⟩
  exact c10_empty_url.2 netFail (some "shop.com/products/w".data) _ rfl

theorem searchDollar_some : ∀ (cs m : Str), searchDollar cs = some m →
    ∃ l, matchDollarAt l = some m := by
  intro cs
  induction cs with
  | nil => intro m h; simp [searchDollar] at h
  | cons c t ih =>
    intro m h
    simp only [searchDollar] at h
    cases hm : matchDollarAt (c :: t) with
    | some m' =>
      rw [hm] at h
      simp at h
      exact ⟨c :: t, by rw [hm, h]⟩
    | none =>
      rw [hm] at h
      exact ih m h

theorem takeGroups_cons_pos (d1 d2 d3 : Char) (rest : Str) (hd1 : d1.isDigit = true)
    (hd2 : d2.isDigit = true) (hd3 : d3.isDigit = true) :
    takeGroups (',' :: d1 :: d2 :: d3 :: rest) =
      (',' :: d1 :: d2 :: d3 :: (takeGroups rest).1, (takeGroups rest).2) := by
  rw [takeGroups.eq_def]
  simp [hd1, hd2, hd3]

theorem takeGroups_cons_neg (d1 d2 d3 : Char) (rest : Str)
    (hdig : ¬ (d1.isDigit && d2.isDigit && d3.isDigit) = true) :
    takeGroups (',' :: d1 :: d2 :: d3 :: rest) = ([], ',' :: d1 :: d2 :: d3 :: rest) := by
  rw [takeGroups.eq_def]
  simp only [Bool.and_eq_true] at hdig
  simp [hdig]

theorem takeGroups_other (l : Str) (h : ∀ d1 d2 d3 rest, l = ',' :: d1 :: d2 :: d3 :: rest → False) :
    takeGroups l = ([], l) := by
  rw [takeGroups.eq_def]
  split
  · exact absurd rfl (fun hh => h _ _ _ _ (by exact hh))
  · rfl

theorem specGroupsParse_no_comma (rest : Str) (h : ∀ t, rest ≠ ',' :: t) :
    specGroupsParse rest = some ([], rest) := by
  cases rest with
  | nil => rfl
  | cons c t =>
    rw [specGroupsParse.eq_def]
    split
    · exact absurd (by assumption) (by intro hc; exact h _ hc)
    · rfl

theorem takeGroups_chars : ∀ l : Str, ∀ c ∈ (takeGroups l).1, c = ',' ∨ c.isDigit = true := by
  intro l
  induction l using takeGroups.induct with
  | case1 d1 d2 d3 rest hdig gs r hgr ih =>
    obtain ⟨⟨hd1, hd2⟩, hd3⟩ : (d1.isDigit = true ∧ d2.isDigit = true) ∧ d3.isDigit = true := by
      simpa [Bool.and_eq_true] using hdig
    intro c hc
    rw [takeGroups_cons_pos d1 d2 d3 rest hd1 hd2 hd3] at hc
    simp only [List.mem_cons] at hc
    rcases hc with rfl | rfl | rfl | rfl | hc
    · left; rfl
    · right; exact hd1
    · right; exact hd2
    · right; exact hd3
    · exact ih c hc
  | case2 d1 d2 d3 rest hdig =>
    intro c hc
    rw [takeGroups_cons_neg d1 d2 d3 rest hdig] at hc
    simp at hc
  | case3 l h1 =>
    intro c hc
    rw [takeGroups_other l h1] at hc
    simp at hc

theorem takeGroups_head (l : Str) :
    (takeGroups l).1 = [] ∨ ∃ t, (takeGroups l).1 = ',' :: t := by
  induction l using takeGroups.induct with
  | case1 d1 d2 d3 rest hdig gs r hgr ih =>
    obtain ⟨⟨hd1, hd2⟩, hd3⟩ : (d1.isDigit = true ∧ d2.isDigit = true) ∧ d3.isDigit = true := by
      simpa [Bool.and_eq_true] using hdig
    right
    exact ⟨_, by rw [takeGroups_cons_pos d1 d2 d3 rest hd1 hd2 hd3]⟩
  | case2 d1 d2 d3 rest hdig =>
    left
    rw [takeGroups_cons_neg d1 d2 d3 rest hdig]
  | case3 l h1 =>
    left
    rw [takeGroups_other l h1]

theorem takeGroups_specParse : ∀ (l rest : Str), (∀ t, rest ≠ ',' :: t) →
    specGroupsParse ((takeGroups l).1 ++ rest) =
      some ((takeGroups l).1.filter (fun c => c.isDigit), rest) := by
  intro l
  induction l using takeGroups.induct with
  | case1 d1 d2 d3 rst hdig gs r hgr ih =>
    intro rest hrest
    obtain ⟨⟨hd1, hd2⟩, hd3⟩ : (d1.isDigit = true ∧ d2.isDigit = true) ∧ d3.isDigit = true := by
      simpa [Bool.and_eq_true] using hdig
    have ih' := ih rest hrest
    rw [takeGroups_cons_pos d1 d2 d3 rst hd1 hd2 hd3]
    simp only [List.cons_append]
    rw [specGroupsParse]
    simp [hd1, hd2, hd3, ih', List.filter_cons]
  | case2 d1 d2 d3 rst hdig =>
    intro rest hrest
    rw [takeGroups_cons_neg d1 d2 d3 rst hdig]
    simpa using specGroupsParse_no_comma rest hrest
  | case3 l h1 =>
    intro rest hrest
    rw [takeGroups_other l h1]
    simpa using specGroupsParse_no_comma rest hrest

theorem takeCents_shape (l : Str) :
    (takeCents l).1 = [] ∨
      ∃ a b, (takeCents l).1 = ['.', a, b] ∧ a.isDigit = true ∧ b.isDigit = true := by
  rw [takeCents.eq_def]
  split
  · split
    · rename_i hab
      obtain ⟨ha, hb⟩ : _ ∧ _ := by simpa [Bool.and_eq_true] using hab
      right
      exact ⟨_, _, rfl, ha, hb⟩
    · left; rfl
  · left; rfl

theorem digit_not_pySpace (c : Char) (h : c.isDigit = true) : isPySpace c = false := by
  cases hs : isPySpace c with
  | false => rfl
  | true =>
    simp only [isPySpace, Bool.or_eq_true, decide_eq_true_eq] at hs
    rcases hs with ((((rfl | rfl) | rfl) | rfl) | rfl) | rfl <;> exact absurd h (by decide)

theorem digit_ne_dollar (c : Char) (h : c.isDigit = true) : c ≠ '$' := by
  intro he
  rw [he] at h
  exact absurd h (by decide)

theorem digit_ne_comma (c : Char) (h : c.isDigit = true) : c ≠ ',' := by
  intro he
  rw [he] at h
  exact absurd h (by decide)

theorem dropWhile_of_head_false (p : Char → Bool) (l : Str) (h : ∀ c ∈ l, p c = false) :
    l.dropWhile p = l := by
  cases l with
  | nil => rfl
  | cons c t => simp [List.dropWhile_cons, h c (List.mem_cons_self c t)]

theorem pyStrip_eq_self (l : Str) (h : ∀ c ∈ l, isPySpace c = false) : pyStrip l = l := by
  unfold pyStrip
  rw [dropWhile_of_head_false isPySpace l h,
    dropWhile_of_head_false isPySpace l.reverse
      (fun c hc => h c (List.mem_reverse.mp hc)),
    List.reverse_reverse]

theorem takeWhile_app (p : Char → Bool) : ∀ (l r : Str), (∀ c ∈ l, p c = true) →
    (l ++ r).takeWhile p = l ++ r.takeWhile p := by
  intro l
  induction l with
  | nil => intro r _; rfl
  | cons c t ih =>
    intro r h
    simp [List.takeWhile_cons, h c (List.mem_cons_self c t),
      ih r (fun x hx => h x (List.mem_cons_of_mem c hx))]

theorem drop_takeWhile_length (p : Char → Bool) : ∀ l : Str,
    l.drop (l.takeWhile p).length = l.dropWhile p := by
  intro l
  induction l with
  | nil => rfl
  | cons c t ih =>
    rw [List.takeWhile_cons, List.dropWhile_cons]
    cases hp : p c with
    | true => simpa using ih
    | false => simp

theorem specGroupsParse_inv : ∀ (w gsD rest2 : Str), specGroupsParse w = some (gsD, rest2) →
    ∃ raw, w = raw ++ rest2 ∧ raw.filter (fun c => c.isDigit) = gsD ∧
      ∀ c ∈ raw, c = ',' ∨ c.isDigit = true := by
  intro w
  induction w using specGroupsParse.induct with
  | case1 d1 d2 d3 r2 hdig ih =>
    intro gsD rest2 h
    obtain ⟨⟨hd1, hd2⟩, hd3⟩ : (d1.isDigit = true ∧ d2.isDigit = true) ∧ d3.isDigit = true := by
      simpa [Bool.and_eq_true] using hdig
    rw [specGroupsParse] at h
    rw [if_pos hdig] at h
    rw [Option.map_eq_some'] at h
    obtain ⟨pr, hpr, heq⟩ := h
    cases heq
    obtain ⟨raw, hw, hf, hcls⟩ := ih pr.1 pr.2 (by simp [hpr])
    refine ⟨',' :: d1 :: d2 :: d3 :: raw, ?_, ?_, ?_⟩
    · simp [hw]
    · simp [List.filter_cons, hd1, hd2, hd3, hf, (by decide : (Char.isDigit ',') = false)]
    · intro c hc
      rcases List.mem_cons.mp hc with rfl | hc
      · left; rfl
      · rcases List.mem_cons.mp hc with rfl | hc
        · right; exact hd1
        · rcases List.mem_cons.mp hc with rfl | hc
          · right; exact hd2
          · rcases List.mem_cons.mp hc with rfl | hc
            · right; exact hd3
            · exact hcls c hc
  | case2 d1 d2 d3 r2 hdig =>
    intro gsD rest2 h
    rw [specGroupsParse] at h
    obtain ⟨⟨hd1, hd2⟩, hd3⟩ : (d1.isDigit = true ∧ d2.isDigit = true) ∧ d3.isDigit = true := by
      by_contra hc
      rw [if_neg (by tauto)] at h
      exact Option.noConfusion h
    exact absurd (by simp [Bool.and_eq_true, hd1, hd2, hd3]) hdig
  | case3 rest h3 =>
    intro gsD rest2 h
    rcases rest with _ | ⟨a, _ | ⟨b, _ | ⟨c, t⟩⟩⟩
    · exact Option.noConfusion h
    · exact Option.noConfusion h
    · exact Option.noConfusion h
    · exact absurd rfl (fun hh => h3 a b c t (by exact hh))
  | case4 l h4 =>
    intro gsD rest2 h
    rw [specGroupsParse_no_comma l (fun t hh => h4 t (by exact hh))] at h
    obtain ⟨rfl, rfl⟩ : gsD = [] ∧ l = rest2 := by
      have := Option.some.injEq .. ▸ h
      exact ⟨(Prod.mk.injEq .. ▸ this.symm).1, (Prod.mk.injEq .. ▸ this).2⟩
    exact ⟨[], by simp⟩

theorem specCents_inv (rest2 : Str) (cents : Option (Char × Char))
    (h : specCents rest2 = some cents) :
    (rest2 = [] ∧ cents = none) ∨
      ∃ a b, rest2 = ['.', a, b] ∧ a.isDigit = true ∧ b.isDigit = true ∧
        cents = some (a, b) := by
  rw [specCents.eq_def] at h
  split at h
  · injection h with h
    exact Or.inl ⟨rfl, h.symm⟩
  · rename_i a b
    split at h
    · rename_i hab
      obtain ⟨ha, hb⟩ : a.isDigit = true ∧ b.isDigit = true := by
        simpa [Bool.and_eq_true] using hab
      injection h with h
      exact Or.inr ⟨a, b, rfl, ha, hb, h.symm⟩
    · exact Option.noConfusion h
  · exact Option.noConfusion h

theorem specTokenParts_inv (m ds gsD : Str) (cents : Option (Char × Char))
    (h : specTokenParts m = some (ds, gsD, cents)) :
    ∃ raw rest2,
      m = '$' :: (ds ++ raw ++ rest2) ∧
      ds ≠ [] ∧ (∀ c ∈ ds, c.isDigit = true) ∧
      raw.filter (fun c => c.isDigit) = gsD ∧
      (∀ c ∈ raw, c = ',' ∨ c.isDigit = true) ∧
      specCents rest2 = some cents := by
  rw [specTokenParts.eq_def] at h
  split at h
  · rename_i r
    simp only [] at h
    split at h
    · rename_i hlen
      rw [Option.bind_eq_some] at h
      obtain ⟨pr, hpr, hmap⟩ := h
      rw [Option.map_eq_some'] at hmap
      obtain ⟨cents', hcents, heq⟩ := hmap
      obtain ⟨rfl, rfl, rfl⟩ :
          r.takeWhile Char.isDigit = ds ∧ pr.1 = gsD ∧ cents' = cents := by
        have h1 := Prod.mk.injEq .. ▸ heq
        exact ⟨h1.1, (Prod.mk.injEq .. ▸ h1.2).1, (Prod.mk.injEq .. ▸ h1.2).2⟩
      obtain ⟨raw, hw, hf, hcls⟩ :=
        specGroupsParse_inv (r.drop (r.takeWhile Char.isDigit).length) pr.1 pr.2
          (by rw [hpr])
      refine ⟨raw, pr.2, ?_, ?_, ?_, hf, hcls, hcents⟩
      · have hsplit : r = r.takeWhile Char.isDigit ++ r.drop (r.takeWhile Char.isDigit).length := by
          rw [drop_takeWhile_length, List.takeWhile_append_dropWhile]
        rw [List.append_assoc, ← hw, ← hsplit]
      · have : 1 ≤ (r.takeWhile Char.isDigit).length := hlen.1
        intro he
        rw [he] at this
        exact absurd this (by simp)
      · intro c hc
        exact List.mem_takeWhile_imp hc
    · exact Option.noConfusion h
  · exact Option.noConfusion h

theorem takeWhile_all (p : Char → Bool) (l : Str) (h : ∀ c ∈ l, p c = true) :
    l.takeWhile p = l := by
  have := takeWhile_app p l [] h
  simpa using this

theorem pyFloat_digits (dsAll : Str) (h : ∀ c ∈ dsAll, c.isDigit = true) (hne : dsAll ≠ []) :
    pyFloat? dsAll = some (digitsNat dsAll : ℚ) := by
  simp only [pyFloat?]
  rw [takeWhile_all Char.isDigit dsAll h, List.drop_length]
  simp [hne]

theorem pyFloat_digits_cents (dsAll : Str) (a b : Char) (h : ∀ c ∈ dsAll, c.isDigit = true)
    (hne : dsAll ≠ []) (ha : a.isDigit = true) (hb : b.isDigit = true) :
    pyFloat? (dsAll ++ ['.', a, b]) = some ((digitsNat dsAll : ℚ) + centsVal a b) := by
  simp only [pyFloat?]
  have hTake : (dsAll ++ ['.', a, b]).takeWhile Char.isDigit = dsAll := by
    rw [takeWhile_app Char.isDigit dsAll ['.', a, b] h]
    simp [List.takeWhile_cons]
  rw [hTake, List.drop_left]
  simp only [List.takeWhile_cons, ha, hb]
  simp only [List.takeWhile_nil]
  have hfp : ([a, b] : Str).takeWhile Char.isDigit = [a, b] := by
    simp [List.takeWhile_cons, ha, hb]
  rw [if_pos ⟨by simp, Or.inl hne⟩]
  have hd2 : digitsNat [a, b] = 10 * (a.toNat - 48) + (b.toNat - 48) := by
    simp [digitsNat]
  simp only [if_true, List.length_cons, List.length_nil]
  rw [hd2, centsVal]
  norm_num

theorem extract_value_of_parts (ds raw rest2 : Str) (cents : Option (Char × Char))
    (hne : ds ≠ []) (hds : ∀ c ∈ ds, c.isDigit = true)
    (hcls : ∀ c ∈ raw, c = ',' ∨ c.isDigit = true)
    (hcents : (rest2 = [] ∧ cents = none) ∨
      ∃ a b, rest2 = ['.', a, b] ∧ a.isDigit = true ∧ b.isDigit = true ∧
        cents = some (a, b)) :
    pyFloat? (pyStrip (removeChar ',' (removeChar '$' ('$' :: (ds ++ raw ++ rest2))))) =
      some ((digitsNat (ds ++ raw.filter (fun c => c.isDigit)) : ℚ) +
        (match cents with
         | some (a, b) => centsVal a b
         | none => 0)) := by
  have hrest2 : ∀ c ∈ rest2, c.isDigit = true ∨ c = '.' := by
    rcases hcents with ⟨rfl, rfl⟩ | ⟨a, b, rfl, ha, hb, rfl⟩
    · intro c hc; simp at hc
    · intro c hc
      rcases List.mem_cons.mp hc with rfl | hc
      · right; rfl
      · rcases List.mem_cons.mp hc with rfl | hc
        · left; exact ha
        · rcases List.mem_cons.mp hc with rfl | hc
          · left; exact hb
          · simp at hc
  have h1 : removeChar '$' ('$' :: (ds ++ raw ++ rest2)) = ds ++ raw ++ rest2 := by
    rw [removeChar, List.filter_cons]
    rw [if_neg (by simp)]
    rw [List.filter_eq_self.mpr]
    intro c hc
    simp only [decide_eq_true_eq]
    rcases List.mem_append.mp hc with hc | hc
    · rcases List.mem_append.mp hc with hc | hc
      · exact digit_ne_dollar c (hds c hc)
      · rcases hcls c hc with rfl | hcd
        · decide
        · exact digit_ne_dollar c hcd
    · rcases hrest2 c hc with hcd | rfl
      · exact digit_ne_dollar c hcd
      · decide
  have h2 : removeChar ',' (ds ++ raw ++ rest2) =
      ds ++ raw.filter (fun c => c.isDigit) ++ rest2 := by
    rw [removeChar, List.filter_append, List.filter_append]
    congr 1
    · congr 1
      · rw [List.filter_eq_self.mpr]
        intro c hc
        simp only [decide_eq_true_eq]
        exact digit_ne_comma c (hds c hc)
      · apply List.filter_congr
        intro c hc
        rcases hcls c hc with rfl | hcd
        · decide
        · simp [digit_ne_comma c hcd, hcd]
    · rw [List.filter_eq_self.mpr]
      intro c hc
      simp only [decide_eq_true_eq]
      rcases hrest2 c hc with hcd | rfl
      · exact digit_ne_comma c hcd
      · decide
  have hgs : ∀ c ∈ raw.filter (fun c => c.isDigit), c.isDigit = true := by
    intro c hc
    exact (List.mem_filter.mp hc).2
  have h3 : pyStrip (ds ++ raw.filter (fun c => c.isDigit) ++ rest2) =
      ds ++ raw.filter (fun c => c.isDigit) ++ rest2 := by
    apply pyStrip_eq_self
    intro c hc
    rcases List.mem_append.mp hc with hc | hc
    · rcases List.mem_append.mp hc with hc | hc
      · exact digit_not_pySpace c (hds c hc)
      · exact digit_not_pySpace c (hgs c hc)
    · rcases hrest2 c hc with hcd | rfl
      · exact digit_not_pySpace c hcd
      · decide
  rw [h1, h2, h3]
  have hdsAll : ∀ c ∈ ds ++ raw.filter (fun c => c.isDigit), c.isDigit = true := by
    intro c hc
    rcases List.mem_append.mp hc with hc | hc
    · exact hds c hc
    · exact hgs c hc
  have hdsAllNe : ds ++ raw.filter (fun c => c.isDigit) ≠ [] := by
    intro he
    exact hne (List.append_eq_nil.mp he).1
  rcases hcents with ⟨rfl, rfl⟩ | ⟨a, b, rfl, ha, hb, rfl⟩
  · rw [List.append_nil]
    rw [pyFloat_digits _ hdsAll hdsAllNe]
    norm_num
  · rw [List.append_assoc] at *
    rw [← List.append_assoc]
    rw [pyFloat_digits_cents _ a b hdsAll hdsAllNe ha hb]

/-- **C8.** For every text containing no currency pattern, `_extract_first_price`
returns `None` (it never raises — its embedding is total — and in particular
never returns 0 for such input); and for every text whose first currency match
is a well-formed `"$1,234.56"`-style substring (dollar sign, 1–3 leading
digits, comma-separated three-digit thousands groups, optional two-digit
cents), it returns exactly the numeral with the separators removed. -/
theorem c8_price_extraction :
    (∀ text : Str, searchDollar text = none → extract_first_price text = none) ∧
    (∀ text m : Str, searchDollar text = some m → specPriceToken m = true →
      extract_first_price text = some (specTokenValue m)) := by
  constructor
  · intro text h
    rw [extract_first_price]
    split
    · rfl
    · rw [h]
  · intro text m hs htok
    have hne : ¬ text = [] := by
      intro he
      subst he
      exact Option.noConfusion hs
    rw [extract_first_price, if_neg hne, hs]
    show pyFloat? (pyStrip (removeChar ',' (removeChar '$' m))) = some (specTokenValue m)
    rw [specPriceToken] at htok
    obtain ⟨⟨ds, gsD, cents⟩, hparts⟩ := Option.isSome_iff_exists.mp htok
    obtain ⟨raw, rest2, hm, hdne, hds, hf, hcls, hcents⟩ :=
      specTokenParts_inv m ds gsD cents hparts
    subst hm
    have hval := extract_value_of_parts ds raw rest2 cents hdne hds hcls
      (specCents_inv rest2 cents hcents)
    rw [hval]
    simp only [specTokenValue, hparts]
    rw [hf]
    rcases cents with _ | ⟨a, b⟩ <;> rfl

theorem c8_price_extraction_witness :
    (searchDollar "no price here".data = none ∧
      extract_first_price "no price here".data = none) ∧
    (searchDollar "now only $1,234.56 (was more)".data = some "$1,234.56".data ∧
      specPriceToken "$1,234.56".data = true ∧
      extract_first_price "now only $1,234.56 (was more)".data =
        some (specTokenValue "$1,234.56".data)) :=
  ⟨⟨by decide, c8_price_extraction.1 _ (by decide)⟩,
   ⟨by decide, by decide,
    c8_price_extraction.2 _ _ (by decide) (by decide)⟩⟩
